import Mathlib

/-!
# Cognitive-LUIS-JavaScript: the browser client `ClientLibrary/luis.js`

A shallow embedding of the client library and the properties of its
request/response contract.

## Scope of the embedding

* JavaScript values are the data the library can be handed: `undefined`, `null`,
  booleans, numbers, strings, arrays, plain objects and callables.  Objects are
  finite lists of own data properties whose prototype is `Object.prototype`;
  accessor properties, proxies and user prototypes are not represented.
* Strings are sequences of UTF-16 code units (`JSString`), so that a string may
  hold a lone surrogate, on which `encodeURIComponent` raises `URIError`.  String
  literals stand for their UTF-16 encoding.  Property names and error messages,
  which the library only builds from constants, are Lean strings.
* Numbers are integers: the library compares numbers only as lengths and as the
  HTTP status.
* `JSON.parse` and the caller's callbacks are platform code.  `JSON.parse` is a
  parameter `jsonParse` (`none` = `SyntaxError`); callbacks are opaque and a
  call to one is recorded, not executed.
* Exceptions are explicit: a function that can throw returns `Except JSError _`.
-/

set_option autoImplicit false

namespace LUIS

/-! ## Strings -/

/-- A JavaScript string, given by its UTF-16 code units (numbers below 65536).  Unlike a
Lean `String` it may hold surrogate code units that do not form a pair. -/
structure JSString where
  units : List Nat
  deriving DecidableEq, Repr

/-- The UTF-16 code units of one Unicode scalar value. -/
def utf16 (c : Char) : List Nat :=
  if c.toNat < 0x10000 then [c.toNat]
  else [0xD800 + (c.toNat - 0x10000) / 0x400, 0xDC00 + (c.toNat - 0x10000) % 0x400]

/-- The JavaScript string that a literal denotes. -/
def JSString.ofString (s : String) : JSString := ⟨s.data.flatMap utf16⟩

instance : Coe String JSString := ⟨JSString.ofString⟩

instance : Append JSString := ⟨fun a b => ⟨a.units ++ b.units⟩⟩

/-! ## Values -/

/-- Callables: the caller's functions are opaque, `isFinished` is the closure that
`LUISResponse` attaches to a dialog (luis.js:236-238). -/
inductive JSFunction where
  | user (id : Nat)
  | isFinished
  deriving DecidableEq, Repr

/-- JavaScript values.  An array carries its elements and, apart from them, the named
own properties that an assignment may have added to it. -/
inductive JSValue where
  | undefined
  | null
  | bool (b : Bool)
  | number (n : Int)
  | string (s : JSString)
  | array (items : List JSValue) (props : List (String × JSValue))
  | object (fields : List (String × JSValue))
  | function (f : JSFunction)

/-- Exceptions: `Error(message)` thrown by the library, `TypeError` raised by the engine
(property access on `null`/`undefined`, call of a non-callable), `SyntaxError` raised by
`JSON.parse`, `URIError` raised by `encodeURIComponent`. -/
inductive JSError where
  | error (message : String)
  | typeError
  | syntaxError
  | uriError
  deriving DecidableEq, Repr

/-- The `typeof` operator. -/
def typeof : JSValue → String
  | .undefined => "undefined"
  | .null => "object"
  | .bool _ => "boolean"
  | .number _ => "number"
  | .string _ => "string"
  | .array _ _ => "object"
  | .object _ => "object"
  | .function _ => "function"

/-- The test `v === null`. -/
def isNull : JSValue → Bool
  | .null => true
  | _ => false

/-- The test `v === s` against a string literal `s`. -/
def strictEqString : JSValue → JSString → Bool
  | .string t, s => t == s
  | _, _ => false

/-- The test `v === n` against a number literal `n`. -/
def strictEqNumber : JSValue → Int → Bool
  | .number m, n => m == n
  | _, _ => false

/-- Own property lookup in a property list (first binding of the key). -/
def lookup (k : String) : List (String × JSValue) → Option JSValue
  | [] => none
  | (k', v) :: rest => if k' = k then some v else lookup k rest

/-- The property list after `o[k] = v`: an existing binding is overwritten in place, a new
one is added at the end. -/
def assign (k : String) (v : JSValue) : List (String × JSValue) → List (String × JSValue)
  | [] => [(k, v)]
  | (k', v') :: rest => if k' = k then (k, v) :: rest else (k', v') :: assign k v rest

/-- The number that a property key denotes when it is a canonical decimal numeral (digits
only, no leading zero except for `0` itself). -/
def parseIndex (k : String) : Option Nat :=
  if k.data.all Char.isDigit && (k.data.length == 1 || (k.data.headD '0' != '0' && k.data != []))
  then some (k.data.foldl (fun n c => 10 * n + (c.toNat - 48)) 0)
  else none

/-- The index `i < len` that the property key `k` denotes, if it denotes one. -/
def arrayIndex (len : Nat) (k : String) : Option Nat :=
  match parseIndex k with
  | some i => if i < len then some i else none
  | none => none

/-- Property read `v.k` / `v[k]` on a value that is neither `null` nor `undefined` (the
library reads properties only of values it has tested).  Exact for keys that the built-in
prototypes do not define, which is the case of every key the library reads except `length`;
`length` is the own property of strings and arrays, and is not represented for callables.
The length and the elements of a string are counted in UTF-16 code units. -/
def getProp (v : JSValue) (k : String) : JSValue :=
  match v with
  | .object fields => (lookup k fields).getD .undefined
  | .array items props =>
    if k = "length" then .number items.length
    else match arrayIndex items.length k with
      | some i => items.getD i .undefined
      | none => (lookup k props).getD .undefined
  | .string s =>
    if k = "length" then .number s.units.length
    else match arrayIndex s.units.length k with
      | some i => .string ⟨[s.units.getD i 0]⟩
      | none => .undefined
  | _ => .undefined

/-- The built-in `Object.prototype.hasOwnProperty`, on a value that is neither `null` nor
`undefined`.  Callables are opaque: their own `length`/`name` are not represented. -/
def ownProperty (v : JSValue) (k : String) : Bool :=
  match v with
  | .object fields => (lookup k fields).isSome
  | .array items props =>
    k == "length" || (arrayIndex items.length k).isSome || (lookup k props).isSome
  | .string s => k == "length" || (arrayIndex s.units.length k).isSome
  | _ => false

/-- The method call `v.hasOwnProperty(k)`.  On `null`/`undefined` the property read raises
`TypeError`.  An object resolves `hasOwnProperty` to its own property of that name when it
has one: a non-callable there makes the call raise `TypeError`; a callable there is the
caller's code, which is not represented, and is taken to answer as the built-in does.
Otherwise the built-in is inherited.  The definition is exact on every value that has no own
property named `hasOwnProperty` (every value that `JSON.parse` returns without such a field
among them) and on those that hold a non-callable there. -/
def hasOwnProperty (v : JSValue) (k : String) : Except JSError Bool :=
  match v with
  | .undefined => .error .typeError
  | .null => .error .typeError
  | .object fields =>
    match lookup "hasOwnProperty" fields with
    | none => .ok (ownProperty v k)
    | some (.function _) => .ok (ownProperty v k)
    | some _ => .error .typeError
  | .array _ props =>
    match lookup "hasOwnProperty" props with
    | none => .ok (ownProperty v k)
    | some (.function _) => .ok (ownProperty v k)
    | some _ => .error .typeError
  | _ => .ok (ownProperty v k)

/-- The assignment `target.k = v` in sloppy mode, returning the target afterwards: `TypeError`
on `null`/`undefined`, silently dropped on a primitive, stored on an object or array.
Callables are opaque and returned as they are. -/
def setProp (target : JSValue) (k : String) (v : JSValue) : Except JSError JSValue :=
  match target with
  | .undefined => .error .typeError
  | .null => .error .typeError
  | .object fields => .ok (.object (assign k v fields))
  | .array items props => .ok (.array items (assign k v props))
  | other => .ok other

/-! ## String built-ins -/

/-- The code units removed by `String.prototype.trim`: WhiteSpace and LineTerminator. -/
def isWhiteSpace (u : Nat) : Bool :=
  u == 0x09 || u == 0x0A || u == 0x0B || u == 0x0C || u == 0x0D || u == 0x20 || u == 0xA0
    || u == 0x1680 || (0x2000 ≤ u && u ≤ 0x200A) || u == 0x2028 || u == 0x2029
    || u == 0x202F || u == 0x205F || u == 0x3000 || u == 0xFEFF

/-- The code units of `s.trim()`. -/
def trimUnits (us : List Nat) : List Nat :=
  ((us.dropWhile isWhiteSpace).reverse.dropWhile isWhiteSpace).reverse

/-- The method `String.prototype.trim`. -/
def trim (s : JSString) : JSString := ⟨trimUnits s.units⟩

/-- The method `s.indexOf(c)` for a search string of one code unit: the position of the
first occurrence, `-1` when there is none. -/
def indexOf (c : Nat) : List Nat → Int
  | [] => -1
  | d :: rest => if d = c then 0 else
    let i := indexOf c rest
    if i = -1 then -1 else i + 1

/-- The code units `encodeURIComponent` leaves as they are: ASCII letters, digits and
`- _ . ! ~ * ' ( )`. -/
def isUnreserved (u : Nat) : Bool :=
  (0x41 ≤ u && u ≤ 0x5A) || (0x61 ≤ u && u ≤ 0x7A) || (0x30 ≤ u && u ≤ 0x39)
    || u == 0x2D || u == 0x5F || u == 0x2E || u == 0x21 || u == 0x7E || u == 0x2A
    || u == 0x27 || u == 0x28 || u == 0x29

/-- A leading (high) surrogate code unit. -/
def isHighSurrogate (u : Nat) : Bool := 0xD800 ≤ u && u ≤ 0xDBFF

/-- A trailing (low) surrogate code unit. -/
def isLowSurrogate (u : Nat) : Bool := 0xDC00 ≤ u && u ≤ 0xDFFF

/-- The UTF-8 encoding of a code point. -/
def utf8Bytes (n : Nat) : List Nat :=
  if n < 0x80 then [n]
  else if n < 0x800 then [0xC0 + n / 0x40, 0x80 + n % 0x40]
  else if n < 0x10000 then [0xE0 + n / 0x1000, 0x80 + n / 0x40 % 0x40, 0x80 + n % 0x40]
  else [0xF0 + n / 0x40000, 0x80 + n / 0x1000 % 0x40, 0x80 + n / 0x40 % 0x40, 0x80 + n % 0x40]

/-- An upper-case hexadecimal digit, as a code unit. -/
def hexDigit (n : Nat) : Nat := if n < 10 then 0x30 + n else 0x41 + (n - 10)

/-- The escape `%XX` of one byte. -/
def percentEncode (b : Nat) : List Nat := [0x25, hexDigit (b / 16), hexDigit (b % 16)]

/-- The escapes of the UTF-8 encoding of a code point. -/
def escapeCodePoint (n : Nat) : List Nat := (utf8Bytes n).flatMap percentEncode

/-- The loop of the abstract operation `Encode` with the unreserved set of
`encodeURIComponent`: an unreserved code unit stands for itself; any other one is read as a
code point, together with the trailing surrogate that follows a leading one, and escaped;
a surrogate that is not part of a pair raises `URIError`. -/
def encodeUnits : List Nat → Except JSError (List Nat)
  | [] => .ok []
  | [u] =>
    if isUnreserved u then .ok [u]
    else if isHighSurrogate u || isLowSurrogate u then .error .uriError
    else .ok (escapeCodePoint u)
  | u :: v :: rest =>
    if isUnreserved u then
      match encodeUnits (v :: rest) with
      | .error e => .error e
      | .ok r => .ok (u :: r)
    else if isHighSurrogate u then
      if isLowSurrogate v then
        match encodeUnits rest with
        | .error e => .error e
        | .ok r => .ok (escapeCodePoint (0x10000 + (u - 0xD800) * 0x400 + (v - 0xDC00)) ++ r)
      else .error .uriError
    else if isLowSurrogate u then .error .uriError
    else
      match encodeUnits (v :: rest) with
      | .error e => .error e
      | .ok r => .ok (escapeCodePoint u ++ r)

/-- The global function `encodeURIComponent`. -/
def encodeURIComponent (s : JSString) : Except JSError JSString :=
  match encodeUnits s.units with
  | .error e => .error e
  | .ok r => .ok ⟨r⟩

/-- Whether `pat` occurs at the start of `s`. -/
def startsWith : List Nat → List Nat → Bool
  | [], _ => true
  | _ :: _, [] => false
  | p :: ps, c :: cs => p == c && startsWith ps cs

/-- The first match of the literal `pat` in `s`: the text before it and the text after it. -/
def splitFirst (pat : List Nat) : List Nat → Option (List Nat × List Nat)
  | [] => if startsWith pat [] then some ([], []) else none
  | c :: cs =>
    if startsWith pat (c :: cs) then some ([], (c :: cs).drop pat.length)
    else match splitFirst pat cs with
      | some (before, after) => some (c :: before, after)
      | none => none

/-- The expansion of a replacement string (GetSubstitution) for a pattern without capture
groups: `$$` is a dollar sign, `$&` the match, the dollar-backtick pair the text before the
match, dollar-apostrophe the text after it; every other code unit, a `$` followed by a digit
or `<` included, stands for itself. -/
def getSubstitution (matched before after : List Nat) : List Nat → List Nat
  | [] => []
  | [c] => [c]
  | c :: d :: rest =>
    if c = 0x24 then
      if d = 0x24 then c :: getSubstitution matched before after rest
      else if d = 0x26 then matched ++ getSubstitution matched before after rest
      else if d = 0x60 then before ++ getSubstitution matched before after rest
      else if d = 0x27 then after ++ getSubstitution matched before after rest
      else c :: getSubstitution matched before after (d :: rest)
    else c :: getSubstitution matched before after (d :: rest)

/-- The call `s.replace(re, replacement)` for a non-global regular expression `re` that
matches the literal `pat`, with a string replacement: the first match is replaced by the
expanded replacement, and `s` is returned as it is when there is no match. -/
def replaceFirst (pat replacement s : List Nat) : List Nat :=
  match splitFirst pat s with
  | none => s
  | some (before, after) => before ++ getSubstitution pat before after replacement ++ after

/-- The literal that `new RegExp('\\{' + i + '\\}')` matches (luis.js:246): an opening
brace, the decimal digits of `i`, a closing brace. -/
def placeholder (i : Nat) : List Nat :=
  0x7B :: (JSString.ofString (toString i)).units ++ [0x7D]

/-- The loop of `stringFormat` from index `i` on (luis.js:245-248); `args` holds
`arguments[i + 1]`, `arguments[i + 2]`, ... -/
def stringFormatLoop : Nat → List Nat → List JSString → List Nat
  | _, s, [] => s
  | i, s, a :: args => stringFormatLoop (i + 1) (replaceFirst (placeholder i) a.units s) args

/-- The function `stringFormat` (luis.js:243-250) applied to `mask` and the string arguments
`args`. -/
def stringFormat (mask : JSString) (args : List JSString) : JSString :=
  ⟨stringFormatLoop 0 mask.units args⟩

/-! ## Validation (luis.js:102-213) -/

/-- The function `validateStringParam` (luis.js:156-163).  It returns the string it has
checked; the `.string` case is the one in which `typeof param !== 'string'` is false. -/
def validateStringParam (param : JSValue) (paramName : String) : Except JSError JSString :=
  if typeof param == "undefined" || isNull param then
    .error (.error ("Null or undefined " ++ paramName))
  else match param with
    | .string s => .ok s
    | _ => .error (.error (paramName ++ " is not a string"))

/-- The function `validateAppInfoParam` (luis.js:127-135), returning the checked string. -/
def validateAppInfoParam (appInfoParam : JSValue) (appInfoParamName : String) :
    Except JSError JSString :=
  match validateStringParam appInfoParam appInfoParamName with
  | .error e => .error e
  | .ok s =>
    if s = "" then .error (.error ("Empty " ++ appInfoParamName))
    else if indexOf 0x20 s.units ≠ -1 then .error (.error ("Invalid " ++ appInfoParamName))
    else .ok s

/-- The function `validateText` (luis.js:142-149). -/
def validateText (text : JSValue) : Except JSError JSString :=
  match validateStringParam text "Text to predict" with
  | .error e => .error e
  | .ok s =>
    let text := trim s
    if text = "" then .error (.error "Empty text to predict") else .ok text

/-- The function `validateBooleanParam` (luis.js:170-178); the `.bool` case is the one in
which `typeof param !== 'boolean'` is false. -/
def validateBooleanParam (param : JSValue) (paramName : String) : Except JSError Bool :=
  let param := if typeof param == "undefined" || isNull param then JSValue.bool false else param
  match param with
  | .bool b => .ok b
  | _ => .error (.error (paramName ++ " flag is not boolean"))

/-- The function `validateInitData` (luis.js:110-120). -/
def validateInitData (initData : JSValue) : Except JSError Unit :=
  if isNull initData || typeof initData == "undefined" then
    .error (.error "Null or undefined initialization data for LUISClient")
  else match hasOwnProperty initData "appId" with
    | .error e => .error e
    | .ok false =>
      .error (.error "You have to provide an Application Id in the initialization data object")
    | .ok true =>
      match hasOwnProperty initData "appKey" with
      | .error e => .error e
      | .ok false =>
        .error (.error "You have to provide an Subscription Key in the initialization data object")
      | .ok true => .ok ()

/-- One of the two handler checks of `validateResponseHandlers` (luis.js:190-194 for
`onSuccess`, 195-199 for `onFailure`). -/
def validateHandler (responseHandlers : JSValue) (name : String) : Except JSError Unit :=
  match hasOwnProperty responseHandlers name with
  | .error e => .error e
  | .ok has =>
    let handler := getProp responseHandlers name
    if !has || typeof handler == "undefined" || isNull handler || typeof handler != "function" then
      .error (.error ("You have to provide an \"" ++ name ++ "\" function as a property " ++
        "of the response handlers object"))
    else .ok ()

/-- The function `validateResponseHandlers` (luis.js:185-200). -/
def validateResponseHandlers (responseHandlers : JSValue) : Except JSError Unit :=
  if typeof responseHandlers == "undefined" || isNull responseHandlers then
    .error (.error ("You have to provide a response handlers object " ++
      "containing \"onSuccess\" and \"onFailure\" functions"))
  else match validateHandler responseHandlers "onSuccess" with
    | .error e => .error e
    | .ok () => validateHandler responseHandlers "onFailure"

/-- The message of the error that `validateLUISresponse` throws (luis.js:210-211). -/
def contextIdMessage : String :=
  "You have to provide a LUISResponse object containing the Context Id of the dialog" ++
    " you're replying to"

/-- The function `validateLUISresponse` (luis.js:206-213): the disjuncts are evaluated from
left to right and the first true one throws.  It returns the context id it has checked (the
`.string` case is the one in which both `typeof` tests on it are false). -/
def validateLUISresponse (LUISresponse : JSValue) : Except JSError JSString :=
  if typeof LUISresponse == "undefined" || isNull LUISresponse then
    .error (.error contextIdMessage)
  else match hasOwnProperty LUISresponse "dialog" with
    | .error e => .error e
    | .ok false => .error (.error contextIdMessage)
    | .ok true =>
      let dialog := getProp LUISresponse "dialog"
      if typeof dialog == "undefined" then .error (.error contextIdMessage)
      else match hasOwnProperty dialog "contextId" with
        | .error e => .error e
        | .ok false => .error (.error contextIdMessage)
        | .ok true =>
          match getProp dialog "contextId" with
          | .string contextId => .ok contextId
          | _ => .error (.error contextIdMessage)

/-! ## Response normalizer (luis.js:216-241) -/

/-- The comparison `v > 0`.  `undefined` converts to `NaN`, `null` to `0`, a boolean to
`0`/`1`.  A string or object operand (possible only as the `length` of an `intents` that is
neither an array nor a string) is converted by ToNumber/ToPrimitive, which is not
represented: the comparison is taken to be false there. -/
def greaterThanZero : JSValue → Bool
  | .number n => 0 < n
  | .bool b => b
  | _ => false

/-- The body of the closure `isFinished` with `this` bound to the dialog (luis.js:237). -/
def isFinished (this : JSValue) : Bool := strictEqString (getProp this "status") "Finished"

/-- Lines 228-234 of `LUISResponse`: a usable `topScoringIntent` overwrites `intents`,
otherwise a non-empty `intents` defines `topScoringIntent`. -/
def normalizeIntents (LUISresponse : JSValue) : Except JSError JSValue :=
  match hasOwnProperty LUISresponse "topScoringIntent" with
  | .error e => .error e
  | .ok hasTop =>
    let top := getProp LUISresponse "topScoringIntent"
    if hasTop && !isNull top && typeof top != "undefined" then
      setProp LUISresponse "intents" (.array [top] [])
    else match hasOwnProperty LUISresponse "intents" with
      | .error e => .error e
      | .ok hasIntents =>
        let intents := getProp LUISresponse "intents"
        if hasIntents && !isNull intents && typeof intents != "undefined"
            && greaterThanZero (getProp intents "length") then
          setProp LUISresponse "topScoringIntent" (getProp intents "0")
        else .ok LUISresponse

/-- Lines 235-239 of `LUISResponse`: the closure is stored on the dialog, which stays the
value of the `dialog` property. -/
def attachIsFinished (LUISresponse : JSValue) : Except JSError JSValue :=
  match hasOwnProperty LUISresponse "dialog" with
  | .error e => .error e
  | .ok hasDialog =>
    let dialog := getProp LUISresponse "dialog"
    if hasDialog && typeof dialog != "undefined" then
      match setProp dialog "isFinished" (.function .isFinished) with
      | .error e => .error e
      | .ok dialog => setProp LUISresponse "dialog" dialog
    else .ok LUISresponse

/-- The function `LUISResponse` (luis.js:220-241); `jsonParse` is `JSON.parse`. -/
def LUISResponse (jsonParse : JSValue → Option JSValue) (JSONResponse : JSValue) :
    Except JSError JSValue :=
  if typeof JSONResponse == "undefined" || isNull JSONResponse
      || strictEqNumber (getProp JSONResponse "length") 0 then
    .error (.error "Invalid Application Id")
  else match jsonParse JSONResponse with
    | none => .error .syntaxError
    | some LUISresponse =>
      match hasOwnProperty LUISresponse "statusCode" with
      | .error e => .error e
      | .ok true => .error (.error "Invalid Subscription Key")
      | .ok false =>
        match normalizeIntents LUISresponse with
        | .error e => .error e
        | .ok LUISresponse => attachIsFinished LUISresponse

/-! ## Transport (luis.js:78-99) -/

/-- A request handed to the browser by `xmlHttp.open(method, url, async)` followed by
`xmlHttp.send()`, with the handlers that its `onreadystatechange` closure holds. -/
structure HttpRequest where
  method : String
  url : JSString
  async : Bool
  responseHandlers : JSValue

/-- A call of one of the caller's callbacks, with its argument. -/
inductive CallbackCall where
  | onSuccess (f : JSFunction) (LUISresponse : JSValue)
  | onFailure (f : JSFunction) (err : JSError)

/-- What one run of the `onreadystatechange` closure does: the callbacks it calls, in order,
and the exception that leaves the closure, if any. -/
structure HandlerOutcome where
  calls : List CallbackCall
  thrown : Option JSError

/-- The call `responseHandlers.onSuccess(LUISresponse)` (luis.js:86). -/
def callOnSuccess (responseHandlers LUISresponse : JSValue) : HandlerOutcome :=
  match getProp responseHandlers "onSuccess" with
  | .function f => ⟨[.onSuccess f LUISresponse], none⟩
  | _ => ⟨[], some .typeError⟩

/-- The call `responseHandlers.onFailure(err)` (luis.js:94). -/
def callOnFailure (responseHandlers : JSValue) (err : JSError) : HandlerOutcome :=
  match getProp responseHandlers "onFailure" with
  | .function f => ⟨[.onFailure f err], none⟩
  | _ => ⟨[], some .typeError⟩

/-- The closure assigned to `xmlHttp.onreadystatechange` (luis.js:80-96), run with the
request in the given `readyState`, HTTP `status` and `responseText`. -/
def onreadystatechange (jsonParse : JSValue → Option JSValue) (responseHandlers : JSValue)
    (readyState status : Nat) (responseText : JSValue) : HandlerOutcome :=
  if readyState ≠ 4 then ⟨[], none⟩
  else if 200 ≤ status ∧ status < 300 then
    match LUISResponse jsonParse responseText with
    | .error e => ⟨[], some e⟩
    | .ok LUISresponse => callOnSuccess responseHandlers LUISresponse
  else
    let err :=
      if status = 400 then JSError.error "Invalid Application Id"
      else JSError.error "Invalid Subscription Key"
    callOnFailure responseHandlers err

/-- The function `httpHelper` (luis.js:78-99): one asynchronous GET is added to the requests
sent so far. -/
def httpHelper (path : JSString) (responseHandlers : JSValue) (sent : List HttpRequest) :
    List HttpRequest :=
  sent ++ [⟨"GET", path, true, responseHandlers⟩]

/-! ## Client factory (luis.js:15-69) -/

/-- The variables that the object returned by `LUISClient` closes over (luis.js:17-24). -/
structure Client where
  appId : JSString
  appKey : JSString
  preview : Bool
  verbose : Bool

/-- The constant `LUISPredictMask` (luis.js:26-27). -/
def LUISPredictMask : JSString :=
  "https://api.projectoxford.ai/luis/v1/application{0}?id={1}&subscription-key={2}{3}&q={4}"

/-- The constant `LUISReplyMask` (luis.js:28-29). -/
def LUISReplyMask : JSString :=
  "https://api.projectoxford.ai/luis/v1/application{0}?id={1}&subscription-key={2}&contextid={3}{4}&q={5}"

/-- The constant `LUISPreviewURL` (luis.js:25). -/
def Client.LUISPreviewURL (c : Client) : JSString := if c.preview then "/preview" else ""

/-- The constant `LUISVerboseURL` (luis.js:30). -/
def Client.LUISVerboseURL (c : Client) : JSString := if c.verbose then "&verbose=true" else ""

/-- The function `LUISClient` (luis.js:15-31). -/
def LUISClient (initData : JSValue) : Except JSError Client :=
  match validateInitData initData with
  | .error e => .error e
  | .ok () =>
    match validateAppInfoParam (getProp initData "appId") "Application Id" with
    | .error e => .error e
    | .ok appId =>
      match validateAppInfoParam (getProp initData "appKey") "Subscription Key" with
      | .error e => .error e
      | .ok appKey =>
        match validateBooleanParam (getProp initData "preview") "Preview" with
        | .error e => .error e
        | .ok preview =>
          match validateBooleanParam (getProp initData "verbose") "Verbose" with
          | .error e => .error e
          | .ok verbose => .ok ⟨appId, appKey, preview, verbose⟩

/-- The method `predict` (luis.js:38-46), run with the requests `sent` so far: the exception
it throws, if any, and the requests sent afterwards.  The arguments of `stringFormat` are
evaluated before it is called, so that a `URIError` of `encodeURIComponent` leaves
`predict` before any request is made. -/
def Client.predict (c : Client) (text responseHandlers : JSValue) (sent : List HttpRequest) :
    Except JSError Unit × List HttpRequest :=
  match validateText text with
  | .error e => (.error e, sent)
  | .ok text =>
    match validateResponseHandlers responseHandlers with
    | .error e => (.error e, sent)
    | .ok () =>
      match encodeURIComponent text with
      | .error e => (.error e, sent)
      | .ok escapedText =>
        let path := stringFormat LUISPredictMask
          [c.LUISPreviewURL, c.appId, c.appKey, c.LUISVerboseURL, escapedText]
        (.ok (), httpHelper path responseHandlers sent)

/-- The method `reply` (luis.js:54-67), run with the requests `sent` so far. -/
def Client.reply (c : Client) (text LUISresponse responseHandlers : JSValue)
    (sent : List HttpRequest) : Except JSError Unit × List HttpRequest :=
  if !c.preview then (.error (.error "Reply can only be used with the preview version"), sent)
  else match validateText text with
    | .error e => (.error e, sent)
    | .ok text =>
      match validateLUISresponse LUISresponse with
      | .error e => (.error e, sent)
      | .ok contextId =>
        match validateResponseHandlers responseHandlers with
        | .error e => (.error e, sent)
        | .ok () =>
          match encodeURIComponent text with
          | .error e => (.error e, sent)
          | .ok escapedText =>
            let path := stringFormat LUISReplyMask
              [c.LUISPreviewURL, c.appId, c.appKey, contextId, c.LUISVerboseURL,
                escapedText]
            (.ok (), httpHelper path responseHandlers sent)

/-! ## Sample data -/

/-- A handlers object with both callbacks, as in `sample.js:12-23`. -/
def sampleHandlers : JSValue :=
  .object [("onSuccess", .function (.user 0)), ("onFailure", .function (.user 1))]

/-- An initialization object with the given credentials and no flags. -/
def credentials (appId appKey : JSString) : JSValue :=
  .object [("appId", .string appId), ("appKey", .string appKey)]

/-- An initialization object with the given credentials and flags, as in `sample.js:5-10`. -/
def initDataOf (appId appKey : JSString) (preview verbose : JSValue) : JSValue :=
  .object [("appId", .string appId), ("appKey", .string appKey), ("preview", preview),
    ("verbose", verbose)]

/-- The values `JSON.parse` returns on the response bodies used as examples below (the
payloads of spec section 8, a service error envelope, a verbose payload, a payload with a
query alone, one with a number for its dialog and one with a field named `hasOwnProperty`);
`none` elsewhere. -/
def jsonParseTable : JSValue → Option JSValue
  | .string body =>
    if body = "\x7b\"topScoringIntent\":\x7b\"intent\":\"X\"\x7d,\"entities\":[]\x7d" then
      some (.object [("topScoringIntent", .object [("intent", .string "X")]),
        ("entities", .array [] [])])
    else if body = "\x7b\"intents\":[\x7b\"intent\":\"Y\"\x7d]\x7d" then
      some (.object [("intents", .array [.object [("intent", .string "Y")]] [])])
    else if body = "\x7b\"dialog\":\x7b\"status\":\"Finished\",\"contextId\":\"c1\"\x7d\x7d" then
      some (.object [("dialog", .object [("status", .string "Finished"),
        ("contextId", .string "c1")])])
    else if body = "\x7b\"statusCode\":401,\"message\":\"Access denied\"\x7d" then
      some (.object [("statusCode", .number 401), ("message", .string "Access denied")])
    else if body = "\x7b\"dialog\":\x7b\"status\":\"Running\",\"contextId\":\"c1\"\x7d\x7d" then
      some (.object [("dialog", .object [("status", .string "Running"),
        ("contextId", .string "c1")])])
    else if body = "\x7b\"dialog\":5\x7d" then
      some (.object [("dialog", .number 5)])
    else if body = "\x7b\"query\":\"hi\"\x7d" then
      some (.object [("query", .string "hi")])
    else if body = "\x7b\"hasOwnProperty\":1,\"statusCode\":401\x7d" then
      some (.object [("hasOwnProperty", .number 1), ("statusCode", .number 401)])
    else if body = "\x7b\"topScoringIntent\":\x7b\"intent\":\"A\"\x7d,\"intents\":[\x7b\"intent\":\"A\"\x7d,\x7b\"intent\":\"B\"\x7d]\x7d" then
      some (.object [("topScoringIntent", .object [("intent", .string "A")]),
        ("intents", .array [.object [("intent", .string "A")],
          .object [("intent", .string "B")]] [])])
    else none
  | _ => none

/-! ## The request URL as the specification words it -/

/-- The URL that the specification gives for `predict`: the fixed parts of the mask with the
configuration and `escapedText`, the result of `encodeURIComponent` on the trimmed text,
concatenated in order. -/
def specPredictURL (appId appKey : JSString) (preview verbose : Bool)
    (escapedText : JSString) : JSString :=
  "https://api.projectoxford.ai/luis/v1/application"
    ++ (if preview then ("/preview" : JSString) else "")
    ++ "?id=" ++ appId ++ "&subscription-key=" ++ appKey
    ++ (if verbose then ("&verbose=true" : JSString) else "") ++ "&q=" ++ escapedText

/-- The URL that the specification gives for `reply` on a preview client: as for `predict`,
with the context id of the prior result between the subscription key and the verbose
parameter. -/
def specReplyURL (appId appKey contextId : JSString) (verbose : Bool)
    (escapedText : JSString) : JSString :=
  "https://api.projectoxford.ai/luis/v1/application/preview?id=" ++ appId
    ++ "&subscription-key=" ++ appKey ++ "&contextid=" ++ contextId
    ++ (if verbose then ("&verbose=true" : JSString) else "") ++ "&q=" ++ escapedText

/-- A string without a lone surrogate (`String.prototype.isWellFormed`): every leading
surrogate is followed by a trailing one and every trailing one follows a leading one. -/
def isWellFormed : List Nat → Bool
  | [] => true
  | [u] => !(isHighSurrogate u || isLowSurrogate u)
  | u :: v :: rest =>
    if isHighSurrogate u then isLowSurrogate v && isWellFormed rest
    else !isLowSurrogate u && isWellFormed (v :: rest)

/-- The boolean that the specification gives a flag of the initialization data: a missing
(`undefined`) or `null` flag stands for `false`, a boolean for itself, and any other value is
rejected. -/
def specFlag : JSValue → Option Bool
  | .undefined => some false
  | .null => some false
  | .bool b => some b
  | _ => none

end LUIS

namespace LUIS

/-! ## Properties of the value operations -/

theorem typeof_undefined_iff (v : JSValue) : (typeof v == "undefined") = true ↔ v = .undefined := by
  cases v <;> simp [typeof]

theorem isNull_iff (v : JSValue) : isNull v = true ↔ v = .null := by
  cases v <;> simp [isNull]

theorem typeof_function_iff (v : JSValue) :
    (typeof v != "function") = false ↔ ∃ f, v = .function f := by
  cases v <;> simp [typeof]

theorem isNull_eq_false_iff (v : JSValue) : isNull v = false ↔ v ≠ .null := by
  cases v <;> simp [isNull]

theorem typeof_ne_undefined_iff (v : JSValue) :
    (typeof v != "undefined") = true ↔ v ≠ .undefined := by
  cases v <;> simp [typeof]

theorem lookup_assign_same (k : String) (v : JSValue) (fields : List (String × JSValue)) :
    lookup k (assign k v fields) = some v := by
  induction fields with
  | nil => simp [assign, lookup]
  | cons p rest ih =>
    obtain ⟨k', v'⟩ := p
    by_cases h : k' = k
    · simp [assign, lookup, h]
    · simp [assign, lookup, h, ih]

theorem lookup_assign_ne {k k' : String} (h : k' ≠ k) (v : JSValue)
    (fields : List (String × JSValue)) : lookup k' (assign k v fields) = lookup k' fields := by
  have h' : ¬ k = k' := fun e => h e.symm
  induction fields with
  | nil => simp [assign, lookup, h']
  | cons p rest ih =>
    obtain ⟨k'', v''⟩ := p
    by_cases h1 : k'' = k
    · subst h1
      simp [assign, lookup, h']
    · by_cases h2 : k'' = k'
      · subst h2
        simp [assign, lookup, h1]
      · simp [assign, lookup, h1, h2, ih]

/-- A property that is not an own property reads as `undefined`. -/
theorem getProp_of_not_own {v : JSValue} {k : String} (h : ownProperty v k = false) :
    getProp v k = .undefined := by
  cases v with
  | object fields =>
    simp only [ownProperty] at h
    simp only [getProp]
    cases hl : lookup k fields with
    | none => rfl
    | some x => simp [hl] at h
  | array items props =>
    simp only [ownProperty, Bool.or_eq_false_iff] at h
    obtain ⟨⟨h1, h2⟩, h3⟩ := h
    have h1' : k ≠ "length" := by simpa using h1
    simp only [getProp, h1', if_false]
    cases ha : arrayIndex items.length k with
    | some i => simp [ha] at h2
    | none =>
      cases hl : lookup k props with
      | none => rfl
      | some x => simp [hl] at h3
  | string s =>
    simp only [ownProperty, Bool.or_eq_false_iff] at h
    obtain ⟨h1, h2⟩ := h
    have h1' : k ≠ "length" := by simpa using h1
    simp only [getProp, h1', if_false]
    cases ha : arrayIndex s.units.length k with
    | some i => simp [ha] at h2
    | none => rfl
  | _ => rfl

/-- A `hasOwnProperty` call that returns, returns the built-in's answer, whatever the key. -/
theorem hasOwnProperty_other {v : JSValue} {k : String} {b : Bool}
    (h : hasOwnProperty v k = .ok b) (k' : String) :
    hasOwnProperty v k' = .ok (ownProperty v k') := by
  cases v with
  | undefined => simp [hasOwnProperty] at h
  | null => simp [hasOwnProperty] at h
  | object fields =>
    simp only [hasOwnProperty] at h ⊢
    split at h
    · simp_all
    · simp_all
    · simp at h
  | array items props =>
    simp only [hasOwnProperty] at h ⊢
    split at h
    · simp_all
    · simp_all
    · simp at h
  | bool _ => rfl
  | number _ => rfl
  | string _ => rfl
  | function _ => rfl

theorem hasOwnProperty_eq_ok {v : JSValue} {k : String} {b : Bool}
    (h : hasOwnProperty v k = .ok b) : b = ownProperty v k := by
  have h' := hasOwnProperty_other h k
  rw [h] at h'
  injection h'

/-- On a value that has no own property named `hasOwnProperty`, the method call is the
built-in. -/
theorem hasOwnProperty_plain {v : JSValue} (hu : v ≠ .undefined) (hn : v ≠ .null)
    (hs : ownProperty v "hasOwnProperty" = false) (k : String) :
    hasOwnProperty v k = .ok (ownProperty v k) := by
  cases v with
  | undefined => exact absurd rfl hu
  | null => exact absurd rfl hn
  | object fields =>
    simp only [ownProperty] at hs
    cases hl : lookup "hasOwnProperty" fields with
    | none => simp only [hasOwnProperty, hl]
    | some x => simp [hl] at hs
  | array items props =>
    simp only [ownProperty, Bool.or_eq_false_iff] at hs
    cases hl : lookup "hasOwnProperty" props with
    | none => simp only [hasOwnProperty, hl]
    | some x => simp [hl] at hs
  | bool _ => rfl
  | number _ => rfl
  | string _ => rfl
  | function _ => rfl

/-- A value with an own property is neither `undefined` nor `null`. -/
theorem ne_null_of_ownProperty {v : JSValue} {k : String} (h : ownProperty v k = true) :
    v ≠ .undefined ∧ v ≠ .null := by
  constructor <;> intro hv <;> subst hv <;> simp [ownProperty] at h

/-- An assignment leaves the other properties as they are. -/
theorem getProp_setProp_ne {v v' x : JSValue} {k k' : String} (hne : k' ≠ k)
    (h : setProp v k x = .ok v') : getProp v' k' = getProp v k' := by
  cases v with
  | undefined => simp [setProp] at h
  | null => simp [setProp] at h
  | object fields =>
    simp only [setProp, Except.ok.injEq] at h
    subst h
    simp [getProp, lookup_assign_ne hne]
  | array items props =>
    simp only [setProp, Except.ok.injEq] at h
    subst h
    simp [getProp, lookup_assign_ne hne]
  | bool _ => simp only [setProp, Except.ok.injEq] at h; subst h; rfl
  | number _ => simp only [setProp, Except.ok.injEq] at h; subst h; rfl
  | string _ => simp only [setProp, Except.ok.injEq] at h; subst h; rfl
  | function _ => simp only [setProp, Except.ok.injEq] at h; subst h; rfl

/-- A value with a named own property is an object or an array, and an assignment to a
named property of it is read back. -/
theorem getProp_setProp_same (k0 : String) {v v' x : JSValue} {k : String} (hk : k ≠ "length")
    (hi : parseIndex k = none) (hk0 : k0 ≠ "length") (hi0 : parseIndex k0 = none)
    (hown : ownProperty v k0 = true) (h : setProp v k x = .ok v') : getProp v' k = x := by
  cases v with
  | undefined => simp [setProp] at h
  | null => simp [setProp] at h
  | object fields =>
    simp only [setProp, Except.ok.injEq] at h
    subst h
    simp [getProp, lookup_assign_same]
  | array items props =>
    simp only [setProp, Except.ok.injEq] at h
    subst h
    simp [getProp, hk, arrayIndex, hi, lookup_assign_same]
  | bool _ => simp [ownProperty] at hown
  | number _ => simp [ownProperty] at hown
  | string _ => simp [ownProperty, hk0, arrayIndex, hi0] at hown
  | function _ => simp [ownProperty] at hown

/-- An assignment to a property other than `hasOwnProperty` does not change whether
`hasOwnProperty` can be called. -/
theorem hasOwnProperty_setProp {v v' x : JSValue} {k k0 : String} {b : Bool}
    (hk : k ≠ "hasOwnProperty") (h0 : hasOwnProperty v k0 = .ok b)
    (h : setProp v k x = .ok v') (k1 : String) :
    hasOwnProperty v' k1 = .ok (ownProperty v' k1) := by
  have hk' : "hasOwnProperty" ≠ k := fun e => hk e.symm
  cases v with
  | undefined => simp [setProp] at h
  | null => simp [setProp] at h
  | object fields =>
    simp only [setProp, Except.ok.injEq] at h
    subst h
    simp only [hasOwnProperty, lookup_assign_ne hk'] at h0 ⊢
    split at h0
    · simp_all
    · simp_all
    · simp at h0
  | array items props =>
    simp only [setProp, Except.ok.injEq] at h
    subst h
    simp only [hasOwnProperty, lookup_assign_ne hk'] at h0 ⊢
    split at h0
    · simp_all
    · simp_all
    · simp at h0
  | bool _ => simp only [setProp, Except.ok.injEq] at h; subst h; rfl
  | number _ => simp only [setProp, Except.ok.injEq] at h; subst h; rfl
  | string _ => simp only [setProp, Except.ok.injEq] at h; subst h; rfl
  | function _ => simp only [setProp, Except.ok.injEq] at h; subst h; rfl

/-- Element `0` of a non-empty array is its first element. -/
theorem getProp_array_zero (x : JSValue) (xs : List JSValue) (props : List (String × JSValue)) :
    getProp (.array (x :: xs) props) "0" = x := by
  have h : parseIndex "0" = some 0 := by decide
  simp [getProp, arrayIndex, h]

/-! ## Properties of the normalizer -/

/-- On a payload whose `hasOwnProperty` can be called, lines 228-234 are a plain case
distinction on the payload's own properties. -/
theorem normalizeIntents_eq {raw : JSValue} {k0 : String} {b0 : Bool}
    (h0 : hasOwnProperty raw k0 = .ok b0) :
    normalizeIntents raw =
      if ownProperty raw "topScoringIntent" && !isNull (getProp raw "topScoringIntent")
          && typeof (getProp raw "topScoringIntent") != "undefined" then
        setProp raw "intents" (.array [getProp raw "topScoringIntent"] [])
      else if ownProperty raw "intents" && !isNull (getProp raw "intents")
          && typeof (getProp raw "intents") != "undefined"
          && greaterThanZero (getProp (getProp raw "intents") "length") then
        setProp raw "topScoringIntent" (getProp (getProp raw "intents") "0")
      else .ok raw := by
  simp only [normalizeIntents, hasOwnProperty_other h0]

/-- Lines 235-239 change no property of the payload other than `dialog`. -/
theorem attachIsFinished_getProp {r result : JSValue} {k : String} (hk : k ≠ "dialog")
    (h : attachIsFinished r = .ok result) : getProp result k = getProp r k := by
  unfold attachIsFinished at h
  split at h
  · simp at h
  · simp only at h
    split at h
    · split at h
      · simp at h
      · exact getProp_setProp_ne hk h
    · simp only [Except.ok.injEq] at h
      subst h
      rfl

/-- The three stages that an accepted body goes through. -/
theorem LUISResponse_ok {jsonParse : JSValue → Option JSValue} {body result : JSValue}
    (h : LUISResponse jsonParse body = .ok result) :
    ∃ raw r, jsonParse body = some raw ∧ hasOwnProperty raw "statusCode" = .ok false ∧
      normalizeIntents raw = .ok r ∧ attachIsFinished r = .ok result := by
  unfold LUISResponse at h
  split at h
  · simp at h
  · split at h
    · simp at h
    · next raw hraw =>
      split at h
      · simp at h
      · simp at h
      · next hsc =>
        split at h
        · simp at h
        · next r hr => exact ⟨raw, r, hraw, hsc, hr, h⟩

theorem strictEqString_iff (v : JSValue) (s : JSString) :
    strictEqString v s = true ↔ v = .string s := by
  cases v <;> simp [strictEqString]

theorem strictEqNumber_iff (v : JSValue) (n : Int) :
    strictEqNumber v n = true ↔ v = .number n := by
  cases v <;> simp [strictEqNumber]

/-- An assignment removes no own property. -/
theorem ownProperty_setProp {v v' x : JSValue} {k : String} (h : setProp v k x = .ok v')
    (k' : String) (hown : ownProperty v k' = true) : ownProperty v' k' = true := by
  have key : ∀ fields : List (String × JSValue), (lookup k' fields).isSome = true →
      (lookup k' (assign k x fields)).isSome = true := by
    intro fields hf
    by_cases hk : k' = k
    · subst hk
      simp [lookup_assign_same]
    · rw [lookup_assign_ne hk]
      exact hf
  cases v with
  | undefined => simp [setProp] at h
  | null => simp [setProp] at h
  | object fields =>
    simp only [setProp, Except.ok.injEq] at h
    subst h
    exact key fields hown
  | array items props =>
    simp only [setProp, Except.ok.injEq] at h
    subst h
    simp only [ownProperty, Bool.or_eq_true] at hown ⊢
    rcases hown with hown | hown
    · exact Or.inl hown
    · exact Or.inr (key props hown)
  | bool _ => simp only [setProp, Except.ok.injEq] at h; subst h; exact hown
  | number _ => simp only [setProp, Except.ok.injEq] at h; subst h; exact hown
  | string _ => simp only [setProp, Except.ok.injEq] at h; subst h; exact hown
  | function _ => simp only [setProp, Except.ok.injEq] at h; subst h; exact hown

/-- Lines 228-234 return the payload as it is or after one assignment, to `intents` or to
`topScoringIntent`. -/
theorem normalizeIntents_cases {raw r : JSValue} (h : normalizeIntents raw = .ok r) :
    r = raw ∨ ∃ k x, (k = "intents" ∨ k = "topScoringIntent") ∧ setProp raw k x = .ok r := by
  unfold normalizeIntents at h
  split at h
  · simp at h
  · simp only at h
    split at h
    · exact Or.inr ⟨_, _, Or.inl rfl, h⟩
    · split at h
      · simp at h
      · split at h
        · exact Or.inr ⟨_, _, Or.inr rfl, h⟩
        · simp only [Except.ok.injEq] at h
          exact Or.inl h.symm

/-- Lines 228-234 change no property other than `intents` and `topScoringIntent`. -/
theorem normalizeIntents_getProp {raw r : JSValue} {k : String} (hi : k ≠ "intents")
    (ht : k ≠ "topScoringIntent") (h : normalizeIntents raw = .ok r) :
    getProp r k = getProp raw k := by
  rcases normalizeIntents_cases h with h | ⟨k', x, hk', hset⟩
  · rw [h]
  · rcases hk' with hk' | hk' <;> subst hk'
    · exact getProp_setProp_ne hi hset
    · exact getProp_setProp_ne ht hset

/-- Lines 235-239 return the payload as it is, or store the closure on the dialog and the
dialog back on the payload. -/
theorem attachIsFinished_cases {r result : JSValue} (h : attachIsFinished r = .ok result) :
    (result = r ∧
      (ownProperty r "dialog" && typeof (getProp r "dialog") != "undefined") = false) ∨
    ((ownProperty r "dialog" && typeof (getProp r "dialog") != "undefined") = true ∧
      ∃ d, setProp (getProp r "dialog") "isFinished" (.function .isFinished) = .ok d ∧
        setProp r "dialog" d = .ok result) := by
  unfold attachIsFinished at h
  split at h
  · simp at h
  · next has hhas =>
    have hb := hasOwnProperty_eq_ok hhas
    subst hb
    simp only at h
    split at h
    · next hc =>
      split at h
      · simp at h
      · next d hd => exact Or.inr ⟨hc, d, hd, h⟩
    · next hc =>
      simp only [Except.ok.injEq] at h
      exact Or.inl ⟨h.symm, by simpa using hc⟩

/-- The test of line 221 is false on a body that is neither `undefined`, nor `null`, nor of
length 0. -/
theorem emptyBodyTest_false {body : JSValue} (hu : body ≠ .undefined) (hn : body ≠ .null)
    (hl : getProp body "length" ≠ .number 0) :
    (typeof body == "undefined" || isNull body
      || strictEqNumber (getProp body "length") 0) = false := by
  have h1 : (typeof body == "undefined") = false := by
    cases hb : (typeof body == "undefined") with
    | false => rfl
    | true => exact absurd ((typeof_undefined_iff _).1 hb) hu
  have h2 : isNull body = false := (isNull_eq_false_iff _).2 hn
  have h3 : strictEqNumber (getProp body "length") 0 = false := by
    cases hb : strictEqNumber (getProp body "length") 0 with
    | false => rfl
    | true => exact absurd ((strictEqNumber_iff _ _).1 hb) hl
  simp [h1, h2, h3]

/-- A payload without `topScoringIntent`, `intents` and `dialog` goes through lines 228-239
unchanged. -/
theorem normalize_of_no_derived_field {raw : JSValue} {k0 : String} {b0 : Bool}
    (h0 : hasOwnProperty raw k0 = .ok b0) (ht : ownProperty raw "topScoringIntent" = false)
    (hi : ownProperty raw "intents" = false) (hd : ownProperty raw "dialog" = false) :
    normalizeIntents raw = .ok raw ∧ attachIsFinished raw = .ok raw := by
  constructor
  · rw [normalizeIntents_eq h0]
    simp [ht, hi]
  · simp [attachIsFinished, hasOwnProperty_other h0, hd]

/-! ## Properties of the string built-ins -/

theorem JSString.ext_units {a b : JSString} (h : a.units = b.units) : a = b := by
  cases a
  cases b
  simp only at h
  rw [h]

theorem JSString.units_append (a b : JSString) : (a ++ b).units = a.units ++ b.units := rfl

/-- Induction along a recursion that looks at one or two code units at a time. -/
theorem list_two_step {P : List Nat → Prop} (h0 : P []) (h1 : ∀ u, P [u])
    (h2 : ∀ u v rest, P rest → P (v :: rest) → P (u :: v :: rest)) : ∀ l, P l := by
  have key : ∀ l, P l ∧ ∀ u, P (u :: l) := by
    intro l
    induction l with
    | nil => exact ⟨h0, h1⟩
    | cons v rest ih => exact ⟨ih.2 v, fun u => h2 u v rest ih.1 (ih.2 v)⟩
  exact fun l => (key l).1

theorem startsWith_append (pat post : List Nat) : startsWith pat (pat ++ post) = true := by
  induction pat with
  | nil => rfl
  | cons p ps ih => simp [startsWith, ih]

/-- The first match of a pattern is where the pattern stands, when its first code unit does
not occur before. -/
theorem splitFirst_append (c0 : Nat) (ps pre post : List Nat) (hpre : c0 ∉ pre) :
    splitFirst (c0 :: ps) (pre ++ ((c0 :: ps) ++ post)) = some (pre, post) := by
  induction pre with
  | nil =>
    have h := startsWith_append (c0 :: ps) post
    simp only [List.nil_append, List.cons_append] at h ⊢
    simp only [splitFirst, h, if_true, List.length_cons, List.drop_succ_cons]
    rw [List.drop_left]
  | cons c pre' ih =>
    have hc : c0 ≠ c := fun e => hpre (by simp [e])
    have hpre' : c0 ∉ pre' := fun hm => hpre (List.mem_cons_of_mem _ hm)
    have hstart : startsWith (c0 :: ps) (c :: (pre' ++ ((c0 :: ps) ++ post))) = false := by
      simp [startsWith, hc]
    have ih' := ih hpre'
    simp only [List.cons_append] at hstart ih' ⊢
    simp only [splitFirst, hstart, ih']
    simp

/-- A replacement string without a dollar sign stands for itself. -/
theorem getSubstitution_of_no_dollar (matched before after replacement : List Nat)
    (h : 0x24 ∉ replacement) :
    getSubstitution matched before after replacement = replacement := by
  induction replacement with
  | nil => rfl
  | cons c rest ih =>
    have hc : ¬ c = 0x24 := fun hc => h (by simp [hc])
    have hrest : 0x24 ∉ rest := fun hm => h (List.mem_cons_of_mem _ hm)
    cases rest with
    | nil => rfl
    | cons d rest' =>
      rw [getSubstitution, if_neg hc, ih hrest]

/-- Replacing the placeholder `{i}` where it stands: the part before it holds no opening
brace and the replacement no dollar sign. -/
theorem replaceFirst_placeholder (i : Nat) (pre post replacement s : List Nat)
    (hs : s = pre ++ (placeholder i ++ post)) (hpre : 0x7B ∉ pre)
    (hrepl : 0x24 ∉ replacement) :
    replaceFirst (placeholder i) replacement s = pre ++ (replacement ++ post) := by
  subst hs
  have hp : placeholder i = 0x7B :: ((JSString.ofString (toString i)).units ++ [0x7D]) := rfl
  rw [replaceFirst, hp, splitFirst_append _ _ _ _ hpre]
  simp [getSubstitution_of_no_dollar _ _ _ _ hrepl]

theorem hexDigit_ne_dollar (n : Nat) : hexDigit n ≠ 0x24 := by
  unfold hexDigit
  split <;> omega

theorem escapeCodePoint_no_dollar (n : Nat) : 0x24 ∉ escapeCodePoint n := by
  intro hm
  simp only [escapeCodePoint, List.mem_flatMap, percentEncode, List.mem_cons,
    List.mem_singleton, List.not_mem_nil, or_false] at hm
  obtain ⟨b, _, hb⟩ := hm
  rcases hb with hb | hb | hb
  · omega
  · exact hexDigit_ne_dollar _ hb.symm
  · exact hexDigit_ne_dollar _ hb.symm

theorem isUnreserved_ne_dollar {u : Nat} (h : isUnreserved u = true) : u ≠ 0x24 := by
  intro hu
  subst hu
  exact absurd h (by decide)

/-- An unreserved code unit is no surrogate. -/
theorem isUnreserved_not_surrogate {u : Nat} (h : isUnreserved u = true) :
    isHighSurrogate u = false ∧ isLowSurrogate u = false := by
  simp only [isUnreserved, Bool.or_eq_true, Bool.and_eq_true, decide_eq_true_eq,
    beq_iff_eq] at h
  simp only [isHighSurrogate, isLowSurrogate, Bool.and_eq_false_iff, decide_eq_false_iff_not]
  omega

/-- The escaped text holds no dollar sign. -/
theorem encodeUnits_no_dollar : ∀ us r, encodeUnits us = .ok r → 0x24 ∉ r := by
  apply list_two_step
  · intro r h
    simp only [encodeUnits, Except.ok.injEq] at h
    subst h
    simp
  · intro u r h
    simp only [encodeUnits] at h
    split at h
    · next hu =>
      simp only [Except.ok.injEq] at h
      subst h
      simpa using (isUnreserved_ne_dollar hu).symm
    · split at h
      · cases h
      · simp only [Except.ok.injEq] at h
        subst h
        exact escapeCodePoint_no_dollar u
  · intro u v rest ih1 ih2 r h
    rw [encodeUnits] at h
    split at h
    · next hu =>
      cases hr : encodeUnits (v :: rest) with
      | error e => simp [hr] at h
      | ok r' =>
        simp only [hr, Except.ok.injEq] at h
        subst h
        have := ih2 r' hr
        simp only [List.mem_cons, not_or]
        exact ⟨(isUnreserved_ne_dollar hu).symm, this⟩
    · split at h
      · split at h
        · cases hr : encodeUnits rest with
          | error e => simp [hr] at h
          | ok r' =>
            simp only [hr, Except.ok.injEq] at h
            subst h
            simp only [List.mem_append, not_or]
            exact ⟨escapeCodePoint_no_dollar _, ih1 r' hr⟩
        · cases h
      · split at h
        · cases h
        · cases hr : encodeUnits (v :: rest) with
          | error e => simp [hr] at h
          | ok r' =>
            simp only [hr, Except.ok.injEq] at h
            subst h
            simp only [List.mem_append, not_or]
            exact ⟨escapeCodePoint_no_dollar _, ih2 r' hr⟩

theorem encodeURIComponent_no_dollar {s q : JSString} (h : encodeURIComponent s = .ok q) :
    0x24 ∉ q.units := by
  unfold encodeURIComponent at h
  cases hr : encodeUnits s.units with
  | error e => simp [hr] at h
  | ok r =>
    simp only [hr, Except.ok.injEq] at h
    subst h
    exact encodeUnits_no_dollar _ _ hr

/-- A string without a lone surrogate can be escaped. -/
theorem encodeUnits_of_isWellFormed :
    ∀ us, isWellFormed us = true → ∃ r, encodeUnits us = .ok r := by
  apply list_two_step
  · intro _
    exact ⟨[], rfl⟩
  · intro u h
    simp only [isWellFormed, Bool.not_eq_true'] at h
    simp only [encodeUnits, h]
    split
    · exact ⟨_, rfl⟩
    · exact ⟨_, rfl⟩
  · intro u v rest ih1 ih2 h
    rw [isWellFormed] at h
    rw [encodeUnits]
    by_cases hu : isUnreserved u = true
    · obtain ⟨hh, hl⟩ := isUnreserved_not_surrogate hu
      simp only [hh, hl, Bool.false_eq_true, if_false, Bool.not_false, Bool.true_and] at h
      obtain ⟨r, hr⟩ := ih2 h
      exact ⟨u :: r, by simp [hu, hr]⟩
    · by_cases hh : isHighSurrogate u = true
      · simp only [hh, if_true, Bool.and_eq_true] at h
        obtain ⟨r, hr⟩ := ih1 h.2
        exact ⟨escapeCodePoint (0x10000 + (u - 0xD800) * 0x400 + (v - 0xDC00)) ++ r, by
          simp [hu, hh, h.1, hr]⟩
      · simp only [hh, Bool.false_eq_true, if_false, Bool.and_eq_true,
          Bool.not_eq_true'] at h
        obtain ⟨r, hr⟩ := ih2 h.2
        exact ⟨escapeCodePoint u ++ r, by simp [hu, hh, h.1, hr]⟩

theorem encodeURIComponent_of_isWellFormed {s : JSString} (h : isWellFormed s.units = true) :
    ∃ q, encodeURIComponent s = .ok q := by
  obtain ⟨r, hr⟩ := encodeUnits_of_isWellFormed _ h
  exact ⟨⟨r⟩, by simp [encodeURIComponent, hr]⟩

/-! ## Properties of `stringFormat` -/

theorem LUISPreviewURL_plain (c : Client) :
    0x7B ∉ c.LUISPreviewURL.units ∧ 0x24 ∉ c.LUISPreviewURL.units := by
  unfold Client.LUISPreviewURL
  cases c.preview <;> decide

theorem LUISVerboseURL_plain (c : Client) :
    0x7B ∉ c.LUISVerboseURL.units ∧ 0x24 ∉ c.LUISVerboseURL.units := by
  unfold Client.LUISVerboseURL
  cases c.verbose <;> decide

theorem stringFormat_five (mask a0 a1 a2 a3 a4 : JSString) :
    (stringFormat mask [a0, a1, a2, a3, a4]).units =
      replaceFirst (placeholder 4) a4.units (replaceFirst (placeholder 3) a3.units
        (replaceFirst (placeholder 2) a2.units (replaceFirst (placeholder 1) a1.units
          (replaceFirst (placeholder 0) a0.units mask.units)))) := rfl

theorem stringFormat_six (mask a0 a1 a2 a3 a4 a5 : JSString) :
    (stringFormat mask [a0, a1, a2, a3, a4, a5]).units =
      replaceFirst (placeholder 5) a5.units (replaceFirst (placeholder 4) a4.units
        (replaceFirst (placeholder 3) a3.units (replaceFirst (placeholder 2) a2.units
          (replaceFirst (placeholder 1) a1.units
            (replaceFirst (placeholder 0) a0.units mask.units))))) := rfl

/-- On arguments without an opening brace and without a dollar sign, `stringFormat` fills
`LUISPredictMask` by concatenation (the last argument may hold braces). -/
theorem stringFormat_LUISPredictMask (a0 a1 a2 a3 a4 : JSString)
    (h0 : 0x7B ∉ a0.units ∧ 0x24 ∉ a0.units)
    (h1 : 0x7B ∉ a1.units ∧ 0x24 ∉ a1.units)
    (h2 : 0x7B ∉ a2.units ∧ 0x24 ∉ a2.units)
    (h3 : 0x7B ∉ a3.units ∧ 0x24 ∉ a3.units)
    (h4 : 0x24 ∉ a4.units) :
    stringFormat LUISPredictMask [a0, a1, a2, a3, a4] =
      "https://api.projectoxford.ai/luis/v1/application" ++ a0 ++ "?id=" ++ a1 ++ "&subscription-key=" ++ a2 ++ a3 ++ "&q=" ++ a4 := by
  have hF0 : 0x7B ∉ (JSString.ofString "https://api.projectoxford.ai/luis/v1/application").units := by decide
  have hF1 : 0x7B ∉ (JSString.ofString "?id=").units := by decide
  have hF2 : 0x7B ∉ (JSString.ofString "&subscription-key=").units := by decide
  have hF4 : 0x7B ∉ (JSString.ofString "&q=").units := by decide
  have e0 := replaceFirst_placeholder 0
    ((JSString.ofString "https://api.projectoxford.ai/luis/v1/application").units)
    (JSString.ofString "?id={1}&subscription-key={2}{3}&q={4}").units a0.units
    LUISPredictMask.units
    (by decide)
    hF0 h0.2
  have e1 := replaceFirst_placeholder 1
    ((JSString.ofString "https://api.projectoxford.ai/luis/v1/application").units ++ (a0.units ++ ((JSString.ofString "?id=").units)))
    (JSString.ofString "&subscription-key={2}{3}&q={4}").units a1.units
    (((JSString.ofString "https://api.projectoxford.ai/luis/v1/application").units) ++ (a0.units ++ (JSString.ofString "?id={1}&subscription-key={2}{3}&q={4}").units))
    (by
      rw [show (JSString.ofString "?id={1}&subscription-key={2}{3}&q={4}").units =
        (JSString.ofString "?id=").units ++ (placeholder 1 ++ (JSString.ofString "&subscription-key={2}{3}&q={4}").units) from by decide]
      simp only [List.append_assoc])
    (by simp only [List.mem_append, not_or]; exact ⟨hF0, h0.1, hF1⟩) h1.2
  have e2 := replaceFirst_placeholder 2
    ((JSString.ofString "https://api.projectoxford.ai/luis/v1/application").units ++ (a0.units ++ ((JSString.ofString "?id=").units ++ (a1.units ++ ((JSString.ofString "&subscription-key=").units)))))
    (JSString.ofString "{3}&q={4}").units a2.units
    (((JSString.ofString "https://api.projectoxford.ai/luis/v1/application").units ++ (a0.units ++ ((JSString.ofString "?id=").units))) ++ (a1.units ++ (JSString.ofString "&subscription-key={2}{3}&q={4}").units))
    (by
      rw [show (JSString.ofString "&subscription-key={2}{3}&q={4}").units =
        (JSString.ofString "&subscription-key=").units ++ (placeholder 2 ++ (JSString.ofString "{3}&q={4}").units) from by decide]
      simp only [List.append_assoc])
    (by simp only [List.mem_append, not_or]; exact ⟨hF0, h0.1, hF1, h1.1, hF2⟩) h2.2
  have e3 := replaceFirst_placeholder 3
    ((JSString.ofString "https://api.projectoxford.ai/luis/v1/application").units ++ (a0.units ++ ((JSString.ofString "?id=").units ++ (a1.units ++ ((JSString.ofString "&subscription-key=").units ++ (a2.units))))))
    (JSString.ofString "&q={4}").units a3.units
    (((JSString.ofString "https://api.projectoxford.ai/luis/v1/application").units ++ (a0.units ++ ((JSString.ofString "?id=").units ++ (a1.units ++ ((JSString.ofString "&subscription-key=").units))))) ++ (a2.units ++ (JSString.ofString "{3}&q={4}").units))
    (by
      rw [show (JSString.ofString "{3}&q={4}").units =
        (placeholder 3 ++ (JSString.ofString "&q={4}").units) from by decide]
      simp only [List.append_assoc])
    (by simp only [List.mem_append, not_or]; exact ⟨hF0, h0.1, hF1, h1.1, hF2, h2.1⟩) h3.2
  have e4 := replaceFirst_placeholder 4
    ((JSString.ofString "https://api.projectoxford.ai/luis/v1/application").units ++ (a0.units ++ ((JSString.ofString "?id=").units ++ (a1.units ++ ((JSString.ofString "&subscription-key=").units ++ (a2.units ++ (a3.units ++ ((JSString.ofString "&q=").units))))))))
    [] a4.units
    (((JSString.ofString "https://api.projectoxford.ai/luis/v1/application").units ++ (a0.units ++ ((JSString.ofString "?id=").units ++ (a1.units ++ ((JSString.ofString "&subscription-key=").units ++ (a2.units)))))) ++ (a3.units ++ (JSString.ofString "&q={4}").units))
    (by
      rw [show (JSString.ofString "&q={4}").units =
        (JSString.ofString "&q=").units ++ (placeholder 4 ++ []) from by decide]
      simp only [List.append_assoc])
    (by simp only [List.mem_append, not_or]; exact ⟨hF0, h0.1, hF1, h1.1, hF2, h2.1, h3.1, hF4⟩) h4
  apply JSString.ext_units
  rw [stringFormat_five, e0, e1, e2, e3, e4]
  simp only [JSString.units_append, List.append_assoc, List.append_nil]

/-- On arguments without an opening brace and without a dollar sign, `stringFormat` fills
`LUISReplyMask` by concatenation (the last argument may hold braces). -/
theorem stringFormat_LUISReplyMask (a0 a1 a2 a3 a4 a5 : JSString)
    (h0 : 0x7B ∉ a0.units ∧ 0x24 ∉ a0.units)
    (h1 : 0x7B ∉ a1.units ∧ 0x24 ∉ a1.units)
    (h2 : 0x7B ∉ a2.units ∧ 0x24 ∉ a2.units)
    (h3 : 0x7B ∉ a3.units ∧ 0x24 ∉ a3.units)
    (h4 : 0x7B ∉ a4.units ∧ 0x24 ∉ a4.units)
    (h5 : 0x24 ∉ a5.units) :
    stringFormat LUISReplyMask [a0, a1, a2, a3, a4, a5] =
      "https://api.projectoxford.ai/luis/v1/application" ++ a0 ++ "?id=" ++ a1 ++ "&subscription-key=" ++ a2 ++ "&contextid=" ++ a3 ++ a4 ++ "&q=" ++ a5 := by
  have hF0 : 0x7B ∉ (JSString.ofString "https://api.projectoxford.ai/luis/v1/application").units := by decide
  have hF1 : 0x7B ∉ (JSString.ofString "?id=").units := by decide
  have hF2 : 0x7B ∉ (JSString.ofString "&subscription-key=").units := by decide
  have hF3 : 0x7B ∉ (JSString.ofString "&contextid=").units := by decide
  have hF5 : 0x7B ∉ (JSString.ofString "&q=").units := by decide
  have e0 := replaceFirst_placeholder 0
    ((JSString.ofString "https://api.projectoxford.ai/luis/v1/application").units)
    (JSString.ofString "?id={1}&subscription-key={2}&contextid={3}{4}&q={5}").units a0.units
    LUISReplyMask.units
    (by decide)
    hF0 h0.2
  have e1 := replaceFirst_placeholder 1
    ((JSString.ofString "https://api.projectoxford.ai/luis/v1/application").units ++ (a0.units ++ ((JSString.ofString "?id=").units)))
    (JSString.ofString "&subscription-key={2}&contextid={3}{4}&q={5}").units a1.units
    (((JSString.ofString "https://api.projectoxford.ai/luis/v1/application").units) ++ (a0.units ++ (JSString.ofString "?id={1}&subscription-key={2}&contextid={3}{4}&q={5}").units))
    (by
      rw [show (JSString.ofString "?id={1}&subscription-key={2}&contextid={3}{4}&q={5}").units =
        (JSString.ofString "?id=").units ++ (placeholder 1 ++ (JSString.ofString "&subscription-key={2}&contextid={3}{4}&q={5}").units) from by decide]
      simp only [List.append_assoc])
    (by simp only [List.mem_append, not_or]; exact ⟨hF0, h0.1, hF1⟩) h1.2
  have e2 := replaceFirst_placeholder 2
    ((JSString.ofString "https://api.projectoxford.ai/luis/v1/application").units ++ (a0.units ++ ((JSString.ofString "?id=").units ++ (a1.units ++ ((JSString.ofString "&subscription-key=").units)))))
    (JSString.ofString "&contextid={3}{4}&q={5}").units a2.units
    (((JSString.ofString "https://api.projectoxford.ai/luis/v1/application").units ++ (a0.units ++ ((JSString.ofString "?id=").units))) ++ (a1.units ++ (JSString.ofString "&subscription-key={2}&contextid={3}{4}&q={5}").units))
    (by
      rw [show (JSString.ofString "&subscription-key={2}&contextid={3}{4}&q={5}").units =
        (JSString.ofString "&subscription-key=").units ++ (placeholder 2 ++ (JSString.ofString "&contextid={3}{4}&q={5}").units) from by decide]
      simp only [List.append_assoc])
    (by simp only [List.mem_append, not_or]; exact ⟨hF0, h0.1, hF1, h1.1, hF2⟩) h2.2
  have e3 := replaceFirst_placeholder 3
    ((JSString.ofString "https://api.projectoxford.ai/luis/v1/application").units ++ (a0.units ++ ((JSString.ofString "?id=").units ++ (a1.units ++ ((JSString.ofString "&subscription-key=").units ++ (a2.units ++ ((JSString.ofString "&contextid=").units)))))))
    (JSString.ofString "{4}&q={5}").units a3.units
    (((JSString.ofString "https://api.projectoxford.ai/luis/v1/application").units ++ (a0.units ++ ((JSString.ofString "?id=").units ++ (a1.units ++ ((JSString.ofString "&subscription-key=").units))))) ++ (a2.units ++ (JSString.ofString "&contextid={3}{4}&q={5}").units))
    (by
      rw [show (JSString.ofString "&contextid={3}{4}&q={5}").units =
        (JSString.ofString "&contextid=").units ++ (placeholder 3 ++ (JSString.ofString "{4}&q={5}").units) from by decide]
      simp only [List.append_assoc])
    (by simp only [List.mem_append, not_or]; exact ⟨hF0, h0.1, hF1, h1.1, hF2, h2.1, hF3⟩) h3.2
  have e4 := replaceFirst_placeholder 4
    ((JSString.ofString "https://api.projectoxford.ai/luis/v1/application").units ++ (a0.units ++ ((JSString.ofString "?id=").units ++ (a1.units ++ ((JSString.ofString "&subscription-key=").units ++ (a2.units ++ ((JSString.ofString "&contextid=").units ++ (a3.units))))))))
    (JSString.ofString "&q={5}").units a4.units
    (((JSString.ofString "https://api.projectoxford.ai/luis/v1/application").units ++ (a0.units ++ ((JSString.ofString "?id=").units ++ (a1.units ++ ((JSString.ofString "&subscription-key=").units ++ (a2.units ++ ((JSString.ofString "&contextid=").units))))))) ++ (a3.units ++ (JSString.ofString "{4}&q={5}").units))
    (by
      rw [show (JSString.ofString "{4}&q={5}").units =
        (placeholder 4 ++ (JSString.ofString "&q={5}").units) from by decide]
      simp only [List.append_assoc])
    (by simp only [List.mem_append, not_or]; exact ⟨hF0, h0.1, hF1, h1.1, hF2, h2.1, hF3, h3.1⟩) h4.2
  have e5 := replaceFirst_placeholder 5
    ((JSString.ofString "https://api.projectoxford.ai/luis/v1/application").units ++ (a0.units ++ ((JSString.ofString "?id=").units ++ (a1.units ++ ((JSString.ofString "&subscription-key=").units ++ (a2.units ++ ((JSString.ofString "&contextid=").units ++ (a3.units ++ (a4.units ++ ((JSString.ofString "&q=").units))))))))))
    [] a5.units
    (((JSString.ofString "https://api.projectoxford.ai/luis/v1/application").units ++ (a0.units ++ ((JSString.ofString "?id=").units ++ (a1.units ++ ((JSString.ofString "&subscription-key=").units ++ (a2.units ++ ((JSString.ofString "&contextid=").units ++ (a3.units)))))))) ++ (a4.units ++ (JSString.ofString "&q={5}").units))
    (by
      rw [show (JSString.ofString "&q={5}").units =
        (JSString.ofString "&q=").units ++ (placeholder 5 ++ []) from by decide]
      simp only [List.append_assoc])
    (by simp only [List.mem_append, not_or]; exact ⟨hF0, h0.1, hF1, h1.1, hF2, h2.1, hF3, h3.1, h4.1, hF5⟩) h5
  apply JSString.ext_units
  rw [stringFormat_six, e0, e1, e2, e3, e4, e5]
  simp only [JSString.units_append, List.append_assoc, List.append_nil]

/-! ## Properties of the validation functions -/

theorem indexOf_ge (c : Nat) (cs : List Nat) : -1 ≤ indexOf c cs := by
  induction cs with
  | nil => simp [indexOf]
  | cons d rest ih =>
    simp only [indexOf]
    split
    · omega
    · split <;> omega

/-- The test `s.indexOf(c) !== -1` holds exactly when `c` occurs in `s`. -/
theorem indexOf_ne_iff (c : Nat) (cs : List Nat) : indexOf c cs ≠ -1 ↔ c ∈ cs := by
  induction cs with
  | nil => simp [indexOf]
  | cons d rest ih =>
    have hge := indexOf_ge c rest
    simp only [indexOf, List.mem_cons]
    by_cases hd : d = c
    · simp [hd]
    · have hd' : ¬ c = d := fun e => hd e.symm
      simp only [hd, hd', if_false, false_or]
      rw [← ih]
      split <;> omega

/-- Trimming a trimmed string changes nothing. -/
theorem trimUnits_idempotent (cs : List Nat) : trimUnits (trimUnits cs) = trimUnits cs := by
  have hdef : ∀ l, trimUnits l =
      List.rdropWhile isWhiteSpace (List.dropWhile isWhiteSpace l) := fun _ => rfl
  rw [hdef, hdef]
  generalize hl : List.dropWhile isWhiteSpace cs = l
  have hll : List.dropWhile isWhiteSpace l = l := by
    rw [← hl]
    exact List.dropWhile_idempotent _ _
  have hm : List.dropWhile isWhiteSpace (List.rdropWhile isWhiteSpace l) =
      List.rdropWhile isWhiteSpace l := by
    obtain ⟨t, ht⟩ : List.rdropWhile isWhiteSpace l <+: l := List.rdropWhile_prefix _ _
    cases hm : List.rdropWhile isWhiteSpace l with
    | nil => rfl
    | cons a m' =>
      rw [hm] at ht
      have ha : ¬ isWhiteSpace a = true := by
        have h0 := List.dropWhile_eq_self_iff.1 hll
        subst ht
        simpa using h0 (by simp)
      simp [List.dropWhile, ha]
  rw [hm]
  exact List.rdropWhile_idempotent _ _

theorem trim_idempotent (s : JSString) : trim (trim s) = trim s := by
  simp [trim, trimUnits_idempotent]

theorem validateText_string (s : JSString) :
    validateText (.string s) =
      if trim s = "" then .error (.error "Empty text to predict") else .ok (trim s) := by
  simp [validateText, validateStringParam, typeof, isNull]

/-- Handlers that pass `validateResponseHandlers` hold two callables. -/
theorem validateResponseHandlers_ok {responseHandlers : JSValue}
    (h : validateResponseHandlers responseHandlers = .ok ()) :
    ∃ f g, getProp responseHandlers "onSuccess" = .function f ∧
      getProp responseHandlers "onFailure" = .function g := by
  have key : ∀ name, validateHandler responseHandlers name = .ok () →
      ∃ f, getProp responseHandlers name = .function f := by
    intro name hn
    unfold validateHandler at hn
    split at hn
    · simp at hn
    · simp only at hn
      split at hn
      · simp at hn
      · next hc =>
        simp only [Bool.or_eq_true, not_or, Bool.not_eq_true] at hc
        exact (typeof_function_iff _).1 hc.2
  unfold validateResponseHandlers at h
  split at h
  · simp at h
  · split at h
    · simp at h
    · next h1 =>
      obtain ⟨f, hf⟩ := key _ h1
      obtain ⟨g, hg⟩ := key _ h
      exact ⟨f, g, hf, hg⟩

/-- Handlers that pass `validateResponseHandlers` are an object that has both callbacks as
own properties. -/
theorem validateResponseHandlers_ok_own {responseHandlers : JSValue}
    (h : validateResponseHandlers responseHandlers = .ok ()) :
    responseHandlers ≠ .undefined ∧ responseHandlers ≠ .null ∧
      ownProperty responseHandlers "onSuccess" = true ∧
      ownProperty responseHandlers "onFailure" = true := by
  have key : ∀ name, validateHandler responseHandlers name = .ok () →
      ownProperty responseHandlers name = true := by
    intro name hn
    unfold validateHandler at hn
    split at hn
    · simp at hn
    · next has hhas =>
      have hb := hasOwnProperty_eq_ok hhas
      subst hb
      simp only at hn
      split at hn
      · simp at hn
      · next hc =>
        simp only [Bool.or_eq_true, not_or, Bool.not_eq_true] at hc
        simpa using hc.1.1.1
  unfold validateResponseHandlers at h
  split at h
  · simp at h
  · next hc =>
    simp only [Bool.or_eq_true, not_or, Bool.not_eq_true] at hc
    split at h
    · simp at h
    · next h1 =>
      refine ⟨?_, ?_, key _ h1, key _ h⟩
      · intro hu
        rw [hu] at hc
        simp [typeof] at hc
      · intro hn
        rw [hn] at hc
        simp [isNull] at hc

/-- `validateInitData` passes exactly when both `hasOwnProperty` calls answer true. -/
theorem validateInitData_ok_iff (initData : JSValue) :
    validateInitData initData = .ok () ↔
      hasOwnProperty initData "appId" = .ok true ∧
      hasOwnProperty initData "appKey" = .ok true := by
  constructor
  · intro h
    unfold validateInitData at h
    split at h
    · simp at h
    · split at h
      · simp at h
      · simp at h
      · next h1 =>
        split at h
        · simp at h
        · simp at h
        · next h2 => exact ⟨h1, h2⟩
  · intro ⟨h1, h2⟩
    have hc : (isNull initData || typeof initData == "undefined") = false := by
      cases initData <;> simp [isNull, typeof, hasOwnProperty] at h1 ⊢
    simp only [validateInitData, hc, h1, h2]
    rfl

/-- `validateAppInfoParam` passes exactly on a non-empty string without a space. -/
theorem validateAppInfoParam_ok_iff (v : JSValue) (name : String) (s : JSString) :
    validateAppInfoParam v name = .ok s ↔ v = .string s ∧ s ≠ "" ∧ 0x20 ∉ s.units := by
  constructor
  · intro h
    cases v with
    | string t =>
      simp only [validateAppInfoParam, validateStringParam, typeof, isNull] at h
      by_cases h1 : t = ""
      · simp [h1] at h
      · by_cases h2 : indexOf 0x20 t.units ≠ -1
        · simp [h1, h2] at h
        · simp [h1, h2] at h
          subst h
          exact ⟨rfl, h1, fun hm => h2 ((indexOf_ne_iff _ _).2 hm)⟩
    | undefined => simp [validateAppInfoParam, validateStringParam, typeof] at h
    | null => simp [validateAppInfoParam, validateStringParam, typeof, isNull] at h
    | bool _ => simp [validateAppInfoParam, validateStringParam, typeof, isNull] at h
    | number _ => simp [validateAppInfoParam, validateStringParam, typeof, isNull] at h
    | array _ _ => simp [validateAppInfoParam, validateStringParam, typeof, isNull] at h
    | object _ => simp [validateAppInfoParam, validateStringParam, typeof, isNull] at h
    | function _ => simp [validateAppInfoParam, validateStringParam, typeof, isNull] at h
  · rintro ⟨rfl, h1, h2⟩
    have h3 : indexOf 0x20 s.units = -1 := by
      by_contra hc
      exact h2 ((indexOf_ne_iff _ _).1 hc)
    simp [validateAppInfoParam, validateStringParam, typeof, isNull, h1, h3]

/-- The checks that a successful `LUISClient` call has passed. -/
theorem LUISClient_ok {initData : JSValue} {c : Client} (h : LUISClient initData = .ok c) :
    validateInitData initData = .ok () ∧
    validateAppInfoParam (getProp initData "appId") "Application Id" = .ok c.appId ∧
    validateAppInfoParam (getProp initData "appKey") "Subscription Key" = .ok c.appKey ∧
    validateBooleanParam (getProp initData "preview") "Preview" = .ok c.preview ∧
    validateBooleanParam (getProp initData "verbose") "Verbose" = .ok c.verbose := by
  unfold LUISClient at h
  split at h
  · simp at h
  · next h1 =>
    split at h
    · simp at h
    · next h2 =>
      split at h
      · simp at h
      · next h3 =>
        split at h
        · simp at h
        · next h4 =>
          split at h
          · simp at h
          · next h5 =>
            simp only [Except.ok.injEq] at h
            subst h
            exact ⟨h1, h2, h3, h4, h5⟩

/-- The flag check computes the boolean the specification gives the flag. -/
theorem validateBooleanParam_eq (param : JSValue) (paramName : String) :
    validateBooleanParam param paramName =
      match specFlag param with
      | some b => .ok b
      | none => .error (.error (paramName ++ " flag is not boolean")) := by
  cases param <;> simp [validateBooleanParam, specFlag, typeof, isNull]

end LUIS

namespace LUIS

/-! ## C1: the URL of `predict` -/

set_option maxRecDepth 10000 in
/-- C1 (code defect): the factory accepts the application id `{2}`, and `predict` then sends
exactly one GET whose `id` parameter carries the subscription key instead of the application
id, because `stringFormat` substitutes placeholder `{2}` inside the text it has just
inserted for `{1}`; the URL differs from the specified concatenation, in which the escaped
text `hi` of `hi` comes last. -/
theorem C1_predict_url_rescans_inserted_appId :
    LUISClient (credentials "{2}" "KEY") = .ok ⟨"{2}", "KEY", false, false⟩ ∧
    Client.predict ⟨"{2}", "KEY", false, false⟩ (.string "hi") sampleHandlers [] =
      (.ok (), [⟨"GET",
        "https://api.projectoxford.ai/luis/v1/application?id=KEY&subscription-key={2}&q=hi",
        true, sampleHandlers⟩]) ∧
    encodeURIComponent (trim "hi") = .ok "hi" ∧
    specPredictURL "{2}" "KEY" false false "hi" =
      "https://api.projectoxford.ai/luis/v1/application?id={2}&subscription-key=KEY&q=hi" ∧
    specPredictURL "{2}" "KEY" false false "hi" ≠
      "https://api.projectoxford.ai/luis/v1/application?id=KEY&subscription-key={2}&q=hi" := by
  refine ⟨rfl, rfl, rfl, rfl, ?_⟩
  decide

/-! ## C2: `topScoringIntent` and `intents` -/

/-- C2: for every body the normalizer accepts, with `raw` the parsed payload: a payload with
an own `topScoringIntent` that is neither `null` nor `undefined` gets `intents` equal to the
one-element array of it; a payload without `topScoringIntent` (or with a `null` one) and with
a non-empty `intents` array gets `topScoringIntent` equal to the first element and keeps
`intents`; and whenever the result has a `topScoringIntent` (neither `undefined` nor `null`)
it is element `0` of the result's `intents`. -/
theorem C2_intents_consistent_with_topScoringIntent
    (jsonParse : JSValue → Option JSValue) (body raw result : JSValue)
    (hparse : jsonParse body = some raw)
    (hok : LUISResponse jsonParse body = .ok result) :
    (ownProperty raw "topScoringIntent" = true → getProp raw "topScoringIntent" ≠ .null →
      getProp raw "topScoringIntent" ≠ .undefined →
      getProp result "intents" = .array [getProp raw "topScoringIntent"] []) ∧
    (∀ x xs props,
      (ownProperty raw "topScoringIntent" = false ∨ getProp raw "topScoringIntent" = .null) →
      getProp raw "intents" = .array (x :: xs) props →
      getProp result "topScoringIntent" = x ∧
        getProp result "intents" = .array (x :: xs) props) ∧
    (getProp result "topScoringIntent" ≠ .undefined →
      getProp result "topScoringIntent" ≠ .null →
      getProp result "topScoringIntent" = getProp (getProp result "intents") "0") := by
  obtain ⟨raw', r, hraw', hsc, hr, hatt⟩ := LUISResponse_ok hok
  rw [hparse] at hraw'
  injection hraw' with hraw'
  subst hraw'
  rw [normalizeIntents_eq hsc] at hr
  have hI : getProp result "intents" = getProp r "intents" :=
    attachIsFinished_getProp (by decide) hatt
  have hT : getProp result "topScoringIntent" = getProp r "topScoringIntent" :=
    attachIsFinished_getProp (by decide) hatt
  rw [hI, hT]
  refine ⟨?_, ?_, ?_⟩
  · intro hown hnull hundef
    rw [if_pos (by simp [hown, (isNull_eq_false_iff _).2 hnull,
      (typeof_ne_undefined_iff _).2 hundef])] at hr
    exact getProp_setProp_same "topScoringIntent" (by decide) (by decide) (by decide)
      (by decide) hown hr
  · intro x xs props htop hint
    have hc1 : ¬ ((ownProperty raw "topScoringIntent" && !isNull (getProp raw "topScoringIntent")
        && typeof (getProp raw "topScoringIntent") != "undefined") = true) := by
      rcases htop with h | h
      · simp [h]
      · simp [h, isNull]
    have hown : ownProperty raw "intents" = true := by
      cases hb : ownProperty raw "intents" with
      | true => rfl
      | false => rw [getProp_of_not_own hb] at hint; cases hint
    rw [if_neg hc1, hint, hown, if_pos (by simp [isNull, typeof, getProp, greaterThanZero])] at hr
    constructor
    · have := getProp_setProp_same "intents" (by decide) (by decide) (by decide)
        (by decide) hown hr
      rw [this]
      exact getProp_array_zero x xs props
    · rw [getProp_setProp_ne (by decide) hr, hint]
  · intro hundef hnull
    by_cases hc1 : (ownProperty raw "topScoringIntent" && !isNull (getProp raw "topScoringIntent")
        && typeof (getProp raw "topScoringIntent") != "undefined") = true
    · rw [if_pos hc1] at hr
      simp only [Bool.and_eq_true] at hc1
      have h1 := getProp_setProp_same "topScoringIntent" (by decide) (by decide)
        (by decide) (by decide) hc1.1.1 hr
      rw [h1, getProp_setProp_ne (by decide) hr]
      rfl
    · rw [if_neg hc1] at hr
      by_cases hc2 : (ownProperty raw "intents" && !isNull (getProp raw "intents")
          && typeof (getProp raw "intents") != "undefined"
          && greaterThanZero (getProp (getProp raw "intents") "length")) = true
      · rw [if_pos hc2] at hr
        simp only [Bool.and_eq_true] at hc2
        have h1 := getProp_setProp_same "intents" (by decide) (by decide)
          (by decide) (by decide) hc2.1.1.1 hr
        rw [h1, getProp_setProp_ne (by decide) hr]
      · rw [if_neg hc2] at hr
        injection hr with hr
        subst hr
        exfalso
        apply hc1
        have hown : ownProperty raw "topScoringIntent" = true := by
          cases hb : ownProperty raw "topScoringIntent" with
          | true => rfl
          | false => exact absurd (getProp_of_not_own hb) hundef
        simp [hown, (isNull_eq_false_iff _).2 hnull, (typeof_ne_undefined_iff _).2 hundef]

/-- Witness for C2 on the payload `{"intents":[{"intent":"Y"}]}` of spec section 8. -/
theorem C2_intents_consistent_with_topScoringIntent_witness :
    jsonParseTable (.string "\x7b\"intents\":[\x7b\"intent\":\"Y\"\x7d]\x7d") =
        some (.object [("intents", .array [.object [("intent", .string "Y")]] [])]) ∧
    LUISResponse jsonParseTable (.string "\x7b\"intents\":[\x7b\"intent\":\"Y\"\x7d]\x7d") =
        .ok (.object [("intents", .array [.object [("intent", .string "Y")]] []),
          ("topScoringIntent", .object [("intent", .string "Y")])]) ∧
    getProp (.object [("intents", .array [.object [("intent", .string "Y")]] []),
        ("topScoringIntent", .object [("intent", .string "Y")])]) "topScoringIntent" =
      .object [("intent", .string "Y")] :=
  ⟨rfl, rfl,
    ((C2_intents_consistent_with_topScoringIntent jsonParseTable
      (.string "\x7b\"intents\":[\x7b\"intent\":\"Y\"\x7d]\x7d")
      (.object [("intents", .array [.object [("intent", .string "Y")]] [])])
      (.object [("intents", .array [.object [("intent", .string "Y")]] []),
        ("topScoringIntent", .object [("intent", .string "Y")])])
      rfl rfl).2.1 _ _ _ (Or.inl rfl) rfl).1⟩

/-! ## C3: completion of a request -/

/-- C3 (code defect): a request that completes with status 200 and an empty body calls
neither `onSuccess` nor `onFailure`; the error `Invalid Application Id` raised by the
normalizer leaves the `onreadystatechange` closure as an uncaught exception. -/
theorem C3_empty_body_calls_no_handler (jsonParse : JSValue → Option JSValue) :
    validateResponseHandlers sampleHandlers = .ok () ∧
    onreadystatechange jsonParse sampleHandlers 4 200 (.string "") =
      ⟨[], some (.error "Invalid Application Id")⟩ := by
  exact ⟨rfl, rfl⟩

/-! ## C4: the HTTP status -/

/-- C4: for a completed request (`readyState` 4) whose handlers passed validation, with `f`
and `g` the callbacks `onSuccess` and `onFailure`: status 400 calls `g` once with the error
`Invalid Application Id`, every other status outside [200, 300) calls `g` once with
`Invalid Subscription Key`, and in both cases `f` is not called; a status in [200, 300) hands
the body to the normalizer, calls `f` with its result when it returns, and never calls
`onFailure`. -/
theorem C4_status_selects_callback (jsonParse : JSValue → Option JSValue)
    (responseHandlers : JSValue) (status : Nat) (responseText : JSValue)
    (hv : validateResponseHandlers responseHandlers = .ok ()) :
    ∃ f g, getProp responseHandlers "onSuccess" = .function f ∧
      getProp responseHandlers "onFailure" = .function g ∧
      (status = 400 →
        onreadystatechange jsonParse responseHandlers 4 status responseText =
          ⟨[.onFailure g (.error "Invalid Application Id")], none⟩) ∧
      (¬ (200 ≤ status ∧ status < 300) → status ≠ 400 →
        onreadystatechange jsonParse responseHandlers 4 status responseText =
          ⟨[.onFailure g (.error "Invalid Subscription Key")], none⟩) ∧
      (200 ≤ status ∧ status < 300 →
        onreadystatechange jsonParse responseHandlers 4 status responseText =
          (match LUISResponse jsonParse responseText with
            | .ok LUISresponse => ⟨[.onSuccess f LUISresponse], none⟩
            | .error e => ⟨[], some e⟩) ∧
        ∀ g' e, CallbackCall.onFailure g' e ∉
          (onreadystatechange jsonParse responseHandlers 4 status responseText).calls) := by
  obtain ⟨f, g, hf, hg⟩ := validateResponseHandlers_ok hv
  refine ⟨f, g, hf, hg, ?_, ?_, ?_⟩
  · intro h400
    subst h400
    simp [onreadystatechange, callOnFailure, hg]
  · intro hout hne
    simp [onreadystatechange, callOnFailure, hg, hout, hne]
  · intro hin
    have heq : onreadystatechange jsonParse responseHandlers 4 status responseText =
        (match LUISResponse jsonParse responseText with
          | .ok LUISresponse => ⟨[.onSuccess f LUISresponse], none⟩
          | .error e => ⟨[], some e⟩) := by
      simp only [onreadystatechange, hin, callOnSuccess, hf]
      cases LUISResponse jsonParse responseText <;> simp
    refine ⟨heq, ?_⟩
    intro g' e
    rw [heq]
    cases LUISResponse jsonParse responseText <;> simp

/-- Witness for C4: status 400 with the handlers of the sample page. -/
theorem C4_status_selects_callback_witness :
    validateResponseHandlers sampleHandlers = .ok () ∧
    ∃ f g, getProp sampleHandlers "onSuccess" = .function f ∧
      getProp sampleHandlers "onFailure" = .function g ∧
      onreadystatechange jsonParseTable sampleHandlers 4 400 (.string "") =
        ⟨[.onFailure g (.error "Invalid Application Id")], none⟩ :=
  ⟨rfl, by
    obtain ⟨f, g, hf, hg, h400, _, _⟩ :=
      C4_status_selects_callback jsonParseTable sampleHandlers 400 (.string "") rfl
    exact ⟨f, g, hf, hg, h400 rfl⟩⟩

/-! ## C5: `predict` and the text -/

/-- C5: for every client, every handlers argument and every list of requests sent so far,
`predict` throws and sends nothing when the text is `undefined`, `null`, not a string, or a
string whose trimmed form is empty. -/
theorem C5_predict_rejects_text (c : Client) (text responseHandlers : JSValue)
    (sent : List HttpRequest)
    (h : text = .undefined ∨ text = .null ∨ (∀ s, text ≠ .string s) ∨
      ∃ s, text = .string s ∧ trim s = "") :
    ∃ e, c.predict text responseHandlers sent = (.error e, sent) := by
  have hv : ∃ e, validateText text = .error e := by
    rcases h with h | h | h | ⟨s, h, ht⟩
    · subst h
      exact ⟨_, rfl⟩
    · subst h
      exact ⟨_, rfl⟩
    · cases text with
      | string s => exact absurd rfl (h s)
      | undefined => exact ⟨_, rfl⟩
      | null => exact ⟨_, rfl⟩
      | bool _ => exact ⟨_, rfl⟩
      | number _ => exact ⟨_, rfl⟩
      | array _ _ => exact ⟨_, rfl⟩
      | object _ => exact ⟨_, rfl⟩
      | function _ => exact ⟨_, rfl⟩
    · subst h
      exact ⟨.error "Empty text to predict", by
        simp [validateText, validateStringParam, typeof, isNull, ht]⟩
  obtain ⟨e, he⟩ := hv
  exact ⟨e, by simp [Client.predict, he]⟩

/-- Witness for C5: a text of three spaces, with no handlers at all. -/
theorem C5_predict_rejects_text_witness :
    trim "   " = "" ∧
    ∃ e, Client.predict ⟨"APP", "KEY", false, false⟩ (.string "   ") .undefined [] =
      (.error e, []) :=
  ⟨rfl, C5_predict_rejects_text ⟨"APP", "KEY", false, false⟩ (.string "   ") .undefined []
    (Or.inr (Or.inr (Or.inr ⟨"   ", rfl, rfl⟩)))⟩

/-! ## C6: `reply` without the preview flag -/

/-- C6: on a client created from initialization data whose `preview` is `false`, missing
(`undefined`) or `null`, `reply` throws `Reply can only be used with the preview version` and
sends nothing, whatever the text, the prior result and the handlers are. -/
theorem C6_reply_needs_preview (initData : JSValue) (c : Client)
    (text LUISresponse responseHandlers : JSValue) (sent : List HttpRequest)
    (hc : LUISClient initData = .ok c)
    (hp : getProp initData "preview" = .bool false ∨ getProp initData "preview" = .undefined ∨
      getProp initData "preview" = .null) :
    c.reply text LUISresponse responseHandlers sent =
      (.error (.error "Reply can only be used with the preview version"), sent) := by
  have hpre := (LUISClient_ok hc).2.2.2.1
  have hfalse : c.preview = false := by
    rw [validateBooleanParam_eq] at hpre
    rcases hp with h | h | h <;> rw [h] at hpre <;> injection hpre with hpre <;>
      exact hpre.symm
  simp [Client.reply, hfalse]

/-- Witness for C6: no flags in the initialization data, and arguments that would each fail
their own validation. -/
theorem C6_reply_needs_preview_witness :
    LUISClient (credentials "APP" "KEY") = .ok ⟨"APP", "KEY", false, false⟩ ∧
    Client.reply ⟨"APP", "KEY", false, false⟩ .null .undefined .null [] =
      (.error (.error "Reply can only be used with the preview version"), []) :=
  ⟨rfl, C6_reply_needs_preview (credentials "APP" "KEY") ⟨"APP", "KEY", false, false⟩
    .null .undefined .null [] rfl (Or.inr (Or.inl rfl))⟩

/-! ## C7: initialization data without credentials -/

/-- C7: `LUISClient` throws, and returns no client, on `null`, on `undefined`, and on every
value that lacks an own `appId` or an own `appKey`, whatever else the value holds. -/
theorem C7_missing_credentials_rejected (initData : JSValue)
    (h : initData = .null ∨ initData = .undefined ∨ ownProperty initData "appId" = false ∨
      ownProperty initData "appKey" = false) :
    ∃ e, LUISClient initData = .error e := by
  have hv : ∃ e, validateInitData initData = .error e := by
    rcases h with h | h | h
    · subst h
      exact ⟨_, rfl⟩
    · subst h
      exact ⟨_, rfl⟩
    · unfold validateInitData
      split
      · exact ⟨_, rfl⟩
      · cases h1 : hasOwnProperty initData "appId" with
        | error e => exact ⟨e, rfl⟩
        | ok b1 =>
          have hb1 := hasOwnProperty_eq_ok h1
          cases b1 with
          | false => exact ⟨_, rfl⟩
          | true =>
            simp only
            rw [hasOwnProperty_other h1 "appKey"]
            rcases h with h | h
            · rw [h] at hb1
              cases hb1
            · rw [h]
              exact ⟨_, rfl⟩
  obtain ⟨e, he⟩ := hv
  exact ⟨e, by simp [LUISClient, he]⟩

/-- Witness for C7: an object with an application id and both flags, but no `appKey`. -/
theorem C7_missing_credentials_rejected_witness :
    ownProperty (.object [("appId", .string "APP"), ("preview", .bool true),
      ("verbose", .bool true)]) "appKey" = false ∧
    ∃ e, LUISClient (.object [("appId", .string "APP"), ("preview", .bool true),
      ("verbose", .bool true)]) = .error e :=
  ⟨rfl, C7_missing_credentials_rejected _ (Or.inr (Or.inr (Or.inr rfl)))⟩

/-! ## C8: empty credentials and credentials with a space -/

/-- C8: `LUISClient` throws whenever `appId` or `appKey` is the empty string or a string that
contains a space.  For initialization data that carries both credentials (`validateInitData`
passes) the message names the offending field: an empty `appId` gives `Empty Application Id`
and an `appId` with a space `Invalid Application Id`; when `appId` is a non-empty string
without a space, an empty `appKey` gives `Empty Subscription Key` and an `appKey` with a space
`Invalid Subscription Key`. -/
theorem C8_bad_credentials_rejected_by_name (initData : JSValue) :
    (∀ s, (getProp initData "appId" = .string s ∨ getProp initData "appKey" = .string s) →
      (s = "" ∨ 0x20 ∈ s.units) → ∃ e, LUISClient initData = .error e) ∧
    (validateInitData initData = .ok () →
      (getProp initData "appId" = .string "" →
        LUISClient initData = .error (.error "Empty Application Id")) ∧
      (∀ a, getProp initData "appId" = .string a → 0x20 ∈ a.units →
        LUISClient initData = .error (.error "Invalid Application Id")) ∧
      (∀ a, getProp initData "appId" = .string a → a ≠ "" → 0x20 ∉ a.units →
        (getProp initData "appKey" = .string "" →
          LUISClient initData = .error (.error "Empty Subscription Key")) ∧
        (∀ k, getProp initData "appKey" = .string k → 0x20 ∈ k.units →
          LUISClient initData = .error (.error "Invalid Subscription Key")))) := by
  have hempty : ∀ a : JSString, 0x20 ∈ a.units → a ≠ "" := by
    intro a ha he
    subst he
    exact absurd ha (by decide)
  have hbad : ∀ (s : JSString) (name : String), (s = "" ∨ 0x20 ∈ s.units) →
      ∃ e, validateAppInfoParam (.string s) name = .error e := by
    intro s name hs
    rcases hs with hs | hs
    · subst hs
      exact ⟨_, rfl⟩
    · have h1 : indexOf 0x20 s.units ≠ -1 := (indexOf_ne_iff _ _).2 hs
      exact ⟨.error ("Invalid " ++ name), by
        simp [validateAppInfoParam, validateStringParam, typeof, isNull, hempty s hs, h1]⟩
  refine ⟨?_, ?_⟩
  · intro s hs hbad'
    cases hc : LUISClient initData with
    | error e => exact ⟨e, rfl⟩
    | ok c =>
      exfalso
      obtain ⟨_, h2, h3, _, _⟩ := LUISClient_ok hc
      rcases hs with hs | hs
      · obtain ⟨e, he⟩ := hbad s "Application Id" hbad'
        rw [hs, he] at h2
        cases h2
      · obtain ⟨e, he⟩ := hbad s "Subscription Key" hbad'
        rw [hs, he] at h3
        cases h3
  intro hinit
  refine ⟨?_, ?_, ?_⟩
  · intro ha
    simp [LUISClient, hinit, ha, validateAppInfoParam, validateStringParam, typeof, isNull]
  · intro a ha hsp
    have h1 : indexOf 0x20 a.units ≠ -1 := (indexOf_ne_iff _ _).2 hsp
    simp [LUISClient, hinit, ha, validateAppInfoParam, validateStringParam, typeof, isNull,
      hempty a hsp, h1]
  · intro a ha hne hsp
    have h1 : ¬ indexOf 0x20 a.units ≠ -1 := fun h => hsp ((indexOf_ne_iff _ _).1 h)
    have h1' : indexOf 0x20 a.units = -1 := by
      by_contra hc
      exact h1 hc
    constructor
    · intro hk
      simp [LUISClient, hinit, ha, hk, validateAppInfoParam, validateStringParam, typeof, isNull,
        hne, h1']
    · intro k hk hksp
      have h2 : indexOf 0x20 k.units ≠ -1 := (indexOf_ne_iff _ _).2 hksp
      simp [LUISClient, hinit, ha, hk, validateAppInfoParam, validateStringParam, typeof, isNull,
        hne, h1', hempty k hksp, h2]

/-- Witness for C8: an application id with an embedded space. -/
theorem C8_bad_credentials_rejected_by_name_witness :
    validateInitData (credentials "my app" "KEY") = .ok () ∧
    LUISClient (credentials "my app" "KEY") = .error (.error "Invalid Application Id") :=
  ⟨rfl, ((C8_bad_credentials_rejected_by_name (credentials "my app" "KEY")).2 rfl).2.1 "my app"
    rfl (by decide)⟩

/-! ## C9: the flags -/

/-- C9: for initialization data with valid credentials, `LUISClient` gives each flag the
boolean the specification states (`undefined` or `null` is `false`, a boolean is kept) and
throws `Preview flag is not boolean` or `Verbose flag is not boolean` for the first flag that
holds anything else.  Consequently, when both flags are absent or `null` the client has an
empty preview path segment and an empty verbose parameter, and it equals the client built
from any initialization data with the same credentials and both flags `false`, so that both
send the same requests. -/
theorem C9_flags_coerced_to_boolean (initData : JSValue) (appId appKey : JSString)
    (hinit : validateInitData initData = .ok ())
    (ha : validateAppInfoParam (getProp initData "appId") "Application Id" = .ok appId)
    (hk : validateAppInfoParam (getProp initData "appKey") "Subscription Key" = .ok appKey) :
    LUISClient initData =
      (match specFlag (getProp initData "preview"), specFlag (getProp initData "verbose") with
        | none, _ => .error (.error "Preview flag is not boolean")
        | some _, none => .error (.error "Verbose flag is not boolean")
        | some preview, some verbose => .ok ⟨appId, appKey, preview, verbose⟩) ∧
    ((getProp initData "preview" = .undefined ∨ getProp initData "preview" = .null) →
      (getProp initData "verbose" = .undefined ∨ getProp initData "verbose" = .null) →
      ∃ c, LUISClient initData = .ok c ∧ c.LUISPreviewURL = "" ∧ c.LUISVerboseURL = "" ∧
        ∀ initData', validateInitData initData' = .ok () →
          getProp initData' "appId" = getProp initData "appId" →
          getProp initData' "appKey" = getProp initData "appKey" →
          getProp initData' "preview" = .bool false →
          getProp initData' "verbose" = .bool false →
          LUISClient initData' = .ok c ∧
          ∀ c', LUISClient initData' = .ok c' → ∀ text responseHandlers sent,
            c'.predict text responseHandlers sent = c.predict text responseHandlers sent) := by
  have hmain : ∀ i : JSValue, validateInitData i = .ok () →
      validateAppInfoParam (getProp i "appId") "Application Id" = .ok appId →
      validateAppInfoParam (getProp i "appKey") "Subscription Key" = .ok appKey →
      LUISClient i =
        (match specFlag (getProp i "preview"), specFlag (getProp i "verbose") with
          | none, _ => .error (.error "Preview flag is not boolean")
          | some _, none => .error (.error "Verbose flag is not boolean")
          | some preview, some verbose => .ok ⟨appId, appKey, preview, verbose⟩) := by
    intro i h1 h2 h3
    simp only [LUISClient, h1, h2, h3, validateBooleanParam_eq]
    cases specFlag (getProp i "preview") <;> cases specFlag (getProp i "verbose") <;> rfl
  refine ⟨hmain initData hinit ha hk, ?_⟩
  intro hp hv
  have hp' : specFlag (getProp initData "preview") = some false := by
    rcases hp with h | h <;> rw [h] <;> rfl
  have hv' : specFlag (getProp initData "verbose") = some false := by
    rcases hv with h | h <;> rw [h] <;> rfl
  have hc : LUISClient initData = .ok ⟨appId, appKey, false, false⟩ := by
    rw [hmain initData hinit ha hk, hp', hv']
  refine ⟨⟨appId, appKey, false, false⟩, hc, rfl, rfl, ?_⟩
  intro initData' hinit' ha' hk' hp2 hv2
  have hc' : LUISClient initData' = .ok ⟨appId, appKey, false, false⟩ := by
    rw [hmain initData' hinit' (by rw [ha']; exact ha) (by rw [hk']; exact hk), hp2, hv2]
    rfl
  refine ⟨hc', ?_⟩
  intro c' hc2 text responseHandlers sent
  rw [hc'] at hc2
  injection hc2 with hc2
  rw [← hc2]

/-- Witness for C9: credentials alone, with no flag present. -/
theorem C9_flags_coerced_to_boolean_witness :
    validateInitData (credentials "APP" "KEY") = .ok () ∧
    LUISClient (credentials "APP" "KEY") = .ok ⟨"APP", "KEY", false, false⟩ ∧
    LUISClient (initDataOf "APP" "KEY" (.string "true") .undefined) =
      .error (.error "Preview flag is not boolean") :=
  ⟨rfl, (C9_flags_coerced_to_boolean (credentials "APP" "KEY") "APP" "KEY" rfl rfl rfl).1,
    rfl⟩

/-! ## C10: `reply` and the prior result -/

/-- C10 (code defect): on a preview client, `reply` with a prior result whose `dialog` is
`null` raises the engine's `TypeError` (from `LUISresponse.dialog.hasOwnProperty`) instead of
the error that asks for a context id; no request is sent. -/
theorem C10_reply_null_dialog_typeError :
    LUISClient (initDataOf "APP" "KEY" (.bool true) .undefined) = .ok ⟨"APP", "KEY", true, false⟩ ∧
    validateText (.string "hi") = .ok "hi" ∧
    Client.reply ⟨"APP", "KEY", true, false⟩ (.string "hi") (.object [("dialog", .null)])
      sampleHandlers [] = (.error .typeError, []) ∧
    JSError.typeError ≠ JSError.error contextIdMessage := by
  refine ⟨rfl, rfl, rfl, ?_⟩
  decide

/-! ## C11: the URL of `reply` -/

set_option maxRecDepth 10000 in
/-- C11 (code defect): on a preview client, `reply` with the prior context id `{5}` sends
exactly one GET whose `contextid` parameter carries the escaped text and whose `q` parameter
carries `{5}`, because `stringFormat` substitutes placeholder `{5}` inside the context id it
has inserted for `{3}`; the URL differs from the specified concatenation, in which the
escaped text `hi` of `hi` comes last. -/
theorem C11_reply_url_rescans_inserted_contextId :
    validateLUISresponse (.object [("dialog", .object [("contextId", .string "{5}")])]) =
      .ok "{5}" ∧
    Client.reply ⟨"APP", "KEY", true, false⟩ (.string "hi")
        (.object [("dialog", .object [("contextId", .string "{5}")])]) sampleHandlers [] =
      (.ok (), [⟨"GET",
        "https://api.projectoxford.ai/luis/v1/application/preview?id=APP&subscription-key=KEY&contextid=hi&q={5}",
        true, sampleHandlers⟩]) ∧
    encodeURIComponent (trim "hi") = .ok "hi" ∧
    specReplyURL "APP" "KEY" "{5}" false "hi" =
      "https://api.projectoxford.ai/luis/v1/application/preview?id=APP&subscription-key=KEY&contextid={5}&q=hi" ∧
    specReplyURL "APP" "KEY" "{5}" false "hi" ≠
      "https://api.projectoxford.ai/luis/v1/application/preview?id=APP&subscription-key=KEY&contextid=hi&q={5}" := by
  refine ⟨rfl, rfl, rfl, rfl, ?_⟩
  decide

/-! ## C12: the predicate `isFinished` -/

/-- C12 (counterexample): the body `{"dialog":5}` is accepted and its payload has a `dialog`
field, but the assignment of `isFinished` to the number is dropped: the result's dialog is
still `5` and carries no `isFinished`. -/
theorem C12_primitive_dialog_carries_no_isFinished :
    jsonParseTable (.string "\x7b\"dialog\":5\x7d") = some (.object [("dialog", .number 5)]) ∧
    ownProperty (.object [("dialog", .number 5)]) "dialog" = true ∧
    LUISResponse jsonParseTable (.string "\x7b\"dialog\":5\x7d") =
      .ok (.object [("dialog", .number 5)]) ∧
    getProp (getProp (.object [("dialog", .number 5)]) "dialog") "isFinished" = .undefined :=
  ⟨rfl, rfl, rfl, rfl⟩

/-- C12 (amended): for every accepted body whose payload has a `dialog` field that holds an
object or an array, the result's dialog carries the closure `isFinished`, and the closure
returns true exactly when the payload's `dialog.status` is the string `Finished`. -/
theorem C12_isFinished_iff_status_Finished
    (jsonParse : JSValue → Option JSValue) (body raw result : JSValue)
    (hparse : jsonParse body = some raw)
    (hok : LUISResponse jsonParse body = .ok result)
    (hobj : (∃ fields, getProp raw "dialog" = .object fields) ∨
      ∃ items props, getProp raw "dialog" = .array items props) :
    getProp (getProp result "dialog") "isFinished" = .function .isFinished ∧
    (isFinished (getProp result "dialog") = true ↔
      getProp (getProp raw "dialog") "status" = .string "Finished") := by
  obtain ⟨raw', r, hraw', hsc, hr, hatt⟩ := LUISResponse_ok hok
  rw [hparse] at hraw'
  injection hraw' with hraw'
  subst hraw'
  have hd : getProp r "dialog" = getProp raw "dialog" :=
    normalizeIntents_getProp (by decide) (by decide) hr
  have hown : ownProperty r "dialog" = true := by
    cases hb : ownProperty r "dialog" with
    | true => rfl
    | false =>
      rw [getProp_of_not_own hb] at hd
      rcases hobj with ⟨fields, h⟩ | ⟨items, props, h⟩ <;> rw [h] at hd <;> cases hd
  have hdef : (typeof (getProp r "dialog") != "undefined") = true := by
    rw [hd]
    rcases hobj with ⟨fields, h⟩ | ⟨items, props, h⟩ <;> rw [h] <;> rfl
  rcases attachIsFinished_cases hatt with ⟨_, hc⟩ | ⟨_, d, hset, hres⟩
  · simp [hown, hdef] at hc
  · have hrd : getProp result "dialog" = d :=
      getProp_setProp_same "dialog" (by decide) (by decide) (by decide) (by decide) hown hres
    have hstatus : getProp d "status" = getProp (getProp raw "dialog") "status" := by
      rw [← hd]
      exact getProp_setProp_ne (by decide) hset
    rw [hrd]
    constructor
    · rw [hd] at hset
      rcases hobj with ⟨fields, h⟩ | ⟨items, props, h⟩ <;> rw [h] at hset <;>
        simp only [setProp, Except.ok.injEq] at hset <;> subst hset
      · simp [getProp, lookup_assign_same]
      · have hp : parseIndex "isFinished" = none := by decide
        simp [getProp, arrayIndex, hp, lookup_assign_same]
    · rw [isFinished, strictEqString_iff, hstatus]

/-- Witness for C12 on the payloads of spec section 8: status `Finished` gives `true`. -/
theorem C12_isFinished_iff_status_Finished_witness :
    LUISResponse jsonParseTable
        (.string "\x7b\"dialog\":\x7b\"status\":\"Finished\",\"contextId\":\"c1\"\x7d\x7d") =
      .ok (.object [("dialog", .object [("status", .string "Finished"),
        ("contextId", .string "c1"), ("isFinished", .function .isFinished)])]) ∧
    isFinished (.object [("status", .string "Finished"), ("contextId", .string "c1"),
      ("isFinished", .function .isFinished)]) = true :=
  ⟨rfl, (C12_isFinished_iff_status_Finished jsonParseTable
    (.string "\x7b\"dialog\":\x7b\"status\":\"Finished\",\"contextId\":\"c1\"\x7d\x7d")
    (.object [("dialog", .object [("status", .string "Finished"), ("contextId", .string "c1")])])
    (.object [("dialog", .object [("status", .string "Finished"),
      ("contextId", .string "c1"), ("isFinished", .function .isFinished)])])
    rfl rfl (Or.inl ⟨_, rfl⟩)).2.2 rfl⟩

/-! ## C13: bodies that the normalizer rejects -/

/-- C13 (counterexample): the body `{"hasOwnProperty":1,"statusCode":401}` is not empty and
parses to an object with an own `statusCode`, but the normalizer raises `TypeError`, not
`Invalid Subscription Key`: `LUISresponse.hasOwnProperty` is the number `1` of the payload,
and calling it fails. -/
theorem C13_payload_field_hasOwnProperty_raises_typeError :
    jsonParseTable (.string "\x7b\"hasOwnProperty\":1,\"statusCode\":401\x7d") =
      some (.object [("hasOwnProperty", .number 1), ("statusCode", .number 401)]) ∧
    ownProperty (.object [("hasOwnProperty", .number 1), ("statusCode", .number 401)])
      "statusCode" = true ∧
    LUISResponse jsonParseTable (.string "\x7b\"hasOwnProperty\":1,\"statusCode\":401\x7d") =
      .error .typeError ∧
    JSError.typeError ≠ JSError.error "Invalid Subscription Key" := by
  refine ⟨rfl, rfl, rfl, ?_⟩
  decide

/-- C13 (amended): the normalizer throws `Invalid Application Id` for every body that is
`undefined`, `null` or of length 0.  For every other body it throws
`Invalid Subscription Key` when the parsed payload has an own `statusCode` and no own
property named `hasOwnProperty`, whatever else the payload holds (`intents`,
`topScoringIntent`, `dialog`).  No payload with an own `statusCode` yields a result. -/
theorem C13_normalizer_rejects_empty_and_statusCode (jsonParse : JSValue → Option JSValue)
    (body : JSValue) :
    ((body = .undefined ∨ body = .null ∨ getProp body "length" = .number 0) →
      LUISResponse jsonParse body = .error (.error "Invalid Application Id")) ∧
    (body ≠ .undefined → body ≠ .null → getProp body "length" ≠ .number 0 →
      ∀ raw, jsonParse body = some raw → ownProperty raw "statusCode" = true →
        ownProperty raw "hasOwnProperty" = false →
        LUISResponse jsonParse body = .error (.error "Invalid Subscription Key")) ∧
    (∀ raw, jsonParse body = some raw → ownProperty raw "statusCode" = true →
      ∃ e, LUISResponse jsonParse body = .error e) := by
  refine ⟨?_, ?_, ?_⟩
  · intro h
    have hc : (typeof body == "undefined" || isNull body
        || strictEqNumber (getProp body "length") 0) = true := by
      rcases h with h | h | h
      · subst h
        rfl
      · subst h
        rfl
      · simp [(strictEqNumber_iff _ _).2 h]
    simp only [LUISResponse, hc]
    rfl
  · intro hu hn hl raw hraw hown hplain
    obtain ⟨h1, h2⟩ := ne_null_of_ownProperty hown
    have hsc : hasOwnProperty raw "statusCode" = .ok true := by
      rw [hasOwnProperty_plain h1 h2 hplain, hown]
    simp only [LUISResponse, emptyBodyTest_false hu hn hl, hraw, hsc]
    rfl
  · intro raw hraw hown
    unfold LUISResponse
    split
    · exact ⟨_, rfl⟩
    · simp only [hraw]
      cases hsc : hasOwnProperty raw "statusCode" with
      | error e => exact ⟨e, rfl⟩
      | ok b =>
        have hb := hasOwnProperty_eq_ok hsc
        rw [hown] at hb
        subst hb
        exact ⟨_, rfl⟩

/-- Witness for C13: the empty body, and the error envelope
`{"statusCode":401,"message":"Access denied"}`. -/
theorem C13_normalizer_rejects_empty_and_statusCode_witness :
    LUISResponse jsonParseTable (.string "") = .error (.error "Invalid Application Id") ∧
    LUISResponse jsonParseTable
        (.string "\x7b\"statusCode\":401,\"message\":\"Access denied\"\x7d") =
      .error (.error "Invalid Subscription Key") :=
  ⟨(C13_normalizer_rejects_empty_and_statusCode jsonParseTable (.string "")).1
      (Or.inr (Or.inr rfl)),
    (C13_normalizer_rejects_empty_and_statusCode jsonParseTable
      (.string "\x7b\"statusCode\":401,\"message\":\"Access denied\"\x7d")).2.1
      (fun h => by cases h) (fun h => by cases h) (fun h => by cases h) _ rfl rfl rfl⟩

/-! ## C14: trimming comes before escaping -/

/-- C14 (counterexample): the text `a\ud800b`, a lone leading surrogate between two letters,
is its own trimmed form and is not empty, and the handlers are valid, but `predict` sends no
request: `encodeURIComponent` raises `URIError`. -/
theorem C14_lone_surrogate_text_sends_nothing :
    trim ⟨[0x61, 0xD800, 0x62]⟩ = ⟨[0x61, 0xD800, 0x62]⟩ ∧
    trim ⟨[0x61, 0xD800, 0x62]⟩ ≠ "" ∧
    validateText (.string ⟨[0x61, 0xD800, 0x62]⟩) = .ok ⟨[0x61, 0xD800, 0x62]⟩ ∧
    validateResponseHandlers sampleHandlers = .ok () ∧
    Client.predict ⟨"APP", "KEY", false, false⟩ (.string ⟨[0x61, 0xD800, 0x62]⟩)
      sampleHandlers [] = (.error .uriError, []) := by
  refine ⟨rfl, ?_, rfl, rfl, rfl⟩
  decide

/-- C14 (amended): for every client and every string `text` whose trimmed form is not empty,
`predict` on `text` and `predict` on the trimmed `text` do the same thing; when moreover the
trimmed text holds no lone surrogate and the handlers are valid, each sends one GET whose URL
is built from the escaped trimmed text, so that no leading or trailing whitespace reaches the
escaping. -/
theorem C14_predict_trims_before_escaping (c : Client) (text : JSString)
    (responseHandlers : JSValue) (sent : List HttpRequest) (hne : trim text ≠ "") :
    c.predict (.string text) responseHandlers sent =
      c.predict (.string (trim text)) responseHandlers sent ∧
    (validateResponseHandlers responseHandlers = .ok () →
      isWellFormed (trim text).units = true →
      ∃ escapedText, encodeURIComponent (trim text) = .ok escapedText ∧
        c.predict (.string text) responseHandlers sent =
          (.ok (), sent ++ [⟨"GET",
            stringFormat LUISPredictMask
              [c.LUISPreviewURL, c.appId, c.appKey, c.LUISVerboseURL, escapedText],
            true, responseHandlers⟩])) := by
  constructor
  · simp only [Client.predict, validateText_string, trim_idempotent]
  · intro hv hwf
    obtain ⟨q, hq⟩ := encodeURIComponent_of_isWellFormed hwf
    exact ⟨q, hq, by simp [Client.predict, validateText_string, hne, hv, hq, httpHelper]⟩

set_option maxRecDepth 10000 in
/-- Witness for C14 on the text of spec section 8: `  hello  ` is sent as `q=hello`. -/
theorem C14_predict_trims_before_escaping_witness :
    trim "  hello  " = "hello" ∧
    Client.predict ⟨"APP", "KEY", false, false⟩ (.string "  hello  ") sampleHandlers [] =
      Client.predict ⟨"APP", "KEY", false, false⟩ (.string "hello") sampleHandlers [] ∧
    Client.predict ⟨"APP", "KEY", false, false⟩ (.string "  hello  ") sampleHandlers [] =
      (.ok (), [⟨"GET",
        "https://api.projectoxford.ai/luis/v1/application?id=APP&subscription-key=KEY&q=hello",
        true, sampleHandlers⟩]) :=
  ⟨rfl, (C14_predict_trims_before_escaping ⟨"APP", "KEY", false, false⟩ "  hello  "
    sampleHandlers [] (by decide)).1, rfl⟩

/-! ## C15: the handlers -/

/-- C15: for every client and every valid text, when the handlers are `undefined` or `null`,
or lack an own `onSuccess` or hold a non-callable there, or lack an own `onFailure` or hold a
non-callable there, `validateResponseHandlers` throws, `predict` throws that error and sends
nothing, and so does `reply` on a preview client once its prior result has passed
`validateLUISresponse`. -/
theorem C15_invalid_handlers_rejected (c : Client)
    (text LUISresponse responseHandlers : JSValue) (validText : JSString)
    (sent : List HttpRequest) (ht : validateText text = .ok validText)
    (hbad : responseHandlers = .undefined ∨ responseHandlers = .null ∨
      ownProperty responseHandlers "onSuccess" = false ∨
      (∀ f, getProp responseHandlers "onSuccess" ≠ .function f) ∨
      ownProperty responseHandlers "onFailure" = false ∨
      (∀ f, getProp responseHandlers "onFailure" ≠ .function f)) :
    ∃ e, validateResponseHandlers responseHandlers = .error e ∧
      c.predict text responseHandlers sent = (.error e, sent) ∧
      (c.preview = true → ∀ contextId, validateLUISresponse LUISresponse = .ok contextId →
        c.reply text LUISresponse responseHandlers sent = (.error e, sent)) := by
  have hv : ∃ e, validateResponseHandlers responseHandlers = .error e := by
    cases hv : validateResponseHandlers responseHandlers with
    | error e => exact ⟨e, rfl⟩
    | ok u =>
      exfalso
      obtain ⟨h1, h2, h3, h4⟩ := validateResponseHandlers_ok_own hv
      obtain ⟨f, g, hf, hg⟩ := validateResponseHandlers_ok hv
      rcases hbad with h | h | h | h | h | h
      · exact h1 h
      · exact h2 h
      · rw [h3] at h
        cases h
      · exact h f hf
      · rw [h4] at h
        cases h
      · exact h g hg
  obtain ⟨e, he⟩ := hv
  refine ⟨e, he, ?_, ?_⟩
  · simp [Client.predict, ht, he]
  · intro hp contextId hcid
    simp [Client.reply, hp, ht, hcid, he]

/-- Witness for C15: handlers without `onFailure`. -/
theorem C15_invalid_handlers_rejected_witness :
    validateText (.string "hi") = .ok "hi" ∧
    ∃ e, validateResponseHandlers (.object [("onSuccess", .function (.user 0))]) = .error e ∧
      Client.predict ⟨"APP", "KEY", true, false⟩ (.string "hi")
        (.object [("onSuccess", .function (.user 0))]) [] = (.error e, []) ∧
      (true = true → ∀ contextId,
        validateLUISresponse (.object [("dialog", .object [("contextId", .string "c1")])]) =
          .ok contextId →
        Client.reply ⟨"APP", "KEY", true, false⟩ (.string "hi")
          (.object [("dialog", .object [("contextId", .string "c1")])])
          (.object [("onSuccess", .function (.user 0))]) [] = (.error e, [])) :=
  ⟨rfl, C15_invalid_handlers_rejected ⟨"APP", "KEY", true, false⟩ (.string "hi")
    (.object [("dialog", .object [("contextId", .string "c1")])])
    (.object [("onSuccess", .function (.user 0))]) "hi" [] rfl
    (Or.inr (Or.inr (Or.inr (Or.inr (Or.inl rfl)))))⟩

/-! ## C16: what the normalizer leaves alone -/

/-- C16: with `raw` the parsed payload of a body, every result that the normalizer returns
agrees with `raw` on every property other than `intents`, `topScoringIntent` and `dialog`;
its dialog agrees with the payload's dialog on every property other than `isFinished`; every
own property of the payload, and of its dialog, is still an own property.  And a non-empty
body whose payload has no `statusCode`, `topScoringIntent`, `intents` and `dialog` is
accepted and returned as it is, whatever else (entities or not) it holds. -/
theorem C16_normalizer_only_adds_derived_fields (jsonParse : JSValue → Option JSValue)
    (body raw : JSValue) (hparse : jsonParse body = some raw) :
    (∀ result, LUISResponse jsonParse body = .ok result →
      (∀ k, k ≠ "intents" → k ≠ "topScoringIntent" → k ≠ "dialog" →
        getProp result k = getProp raw k) ∧
      (∀ k, k ≠ "isFinished" →
        getProp (getProp result "dialog") k = getProp (getProp raw "dialog") k) ∧
      (∀ k, ownProperty raw k = true → ownProperty result k = true) ∧
      (∀ k, ownProperty (getProp raw "dialog") k = true →
        ownProperty (getProp result "dialog") k = true)) ∧
    (body ≠ .undefined → body ≠ .null → getProp body "length" ≠ .number 0 →
      hasOwnProperty raw "statusCode" = .ok false →
      ownProperty raw "topScoringIntent" = false → ownProperty raw "intents" = false →
      ownProperty raw "dialog" = false → LUISResponse jsonParse body = .ok raw) := by
  constructor
  · intro result hok
    obtain ⟨raw', r, hraw', hsc, hr, hatt⟩ := LUISResponse_ok hok
    rw [hparse] at hraw'
    injection hraw' with hraw'
    subst hraw'
    have hd : getProp r "dialog" = getProp raw "dialog" :=
      normalizeIntents_getProp (by decide) (by decide) hr
    have hownr : ∀ k, ownProperty raw k = true → ownProperty r k = true := by
      intro k hk
      rcases normalizeIntents_cases hr with h | ⟨k', x, _, hset⟩
      · rw [h]
        exact hk
      · exact ownProperty_setProp hset k hk
    refine ⟨?_, ?_, ?_, ?_⟩
    · intro k hi ht hdk
      rw [attachIsFinished_getProp hdk hatt, normalizeIntents_getProp hi ht hr]
    · intro k hk
      rcases attachIsFinished_cases hatt with ⟨hres, _⟩ | ⟨hc, d, hset, hres⟩
      · rw [hres, hd]
      · simp only [Bool.and_eq_true] at hc
        rw [getProp_setProp_same "dialog" (by decide) (by decide) (by decide) (by decide)
          hc.1 hres, getProp_setProp_ne hk hset, hd]
    · intro k hk
      rcases attachIsFinished_cases hatt with ⟨hres, _⟩ | ⟨_, d, _, hres⟩
      · rw [hres]
        exact hownr k hk
      · exact ownProperty_setProp hres k (hownr k hk)
    · intro k hk
      rw [← hd] at hk
      rcases attachIsFinished_cases hatt with ⟨hres, _⟩ | ⟨hc, d, hset, hres⟩
      · rw [hres]
        exact hk
      · simp only [Bool.and_eq_true] at hc
        rw [getProp_setProp_same "dialog" (by decide) (by decide) (by decide) (by decide)
          hc.1 hres]
        exact ownProperty_setProp hset k hk
  · intro hu hn hl hsc ht hi hd
    obtain ⟨h1, h2⟩ := normalize_of_no_derived_field hsc ht hi hd
    simp only [LUISResponse, emptyBodyTest_false hu hn hl, hparse, hsc, h1, h2]
    rfl

/-- Witness for C16: the body `{"query":"hi"}`, with no intents, no top intent and no
entities, is returned as parsed. -/
theorem C16_normalizer_only_adds_derived_fields_witness :
    jsonParseTable (.string "\x7b\"query\":\"hi\"\x7d") =
      some (.object [("query", .string "hi")]) ∧
    LUISResponse jsonParseTable (.string "\x7b\"query\":\"hi\"\x7d") =
      .ok (.object [("query", .string "hi")]) :=
  ⟨rfl, (C16_normalizer_only_adds_derived_fields jsonParseTable
    (.string "\x7b\"query\":\"hi\"\x7d") (.object [("query", .string "hi")]) rfl).2
    (fun h => by cases h) (fun h => by cases h)
    (fun h => by simp [getProp] at h; exact absurd h (by decide)) rfl rfl rfl rfl⟩

/-! ## C17: `topScoringIntent` overwrites `intents` -/

/-- C17: for every accepted body whose payload has an own `topScoringIntent` that is neither
`null` nor `undefined`, the result's `intents` is the array whose only element is that
`topScoringIntent`, of length 1, whatever the payload's own `intents` was; the result's
`topScoringIntent` is the payload's. -/
theorem C17_topScoringIntent_overwrites_intents
    (jsonParse : JSValue → Option JSValue) (body raw result : JSValue)
    (hparse : jsonParse body = some raw)
    (hok : LUISResponse jsonParse body = .ok result)
    (hown : ownProperty raw "topScoringIntent" = true)
    (hnull : getProp raw "topScoringIntent" ≠ .null)
    (hundef : getProp raw "topScoringIntent" ≠ .undefined) :
    getProp result "intents" = .array [getProp raw "topScoringIntent"] [] ∧
    getProp (getProp result "intents") "length" = .number 1 ∧
    getProp result "topScoringIntent" = getProp raw "topScoringIntent" := by
  obtain ⟨raw', r, hraw', hsc, hr, hatt⟩ := LUISResponse_ok hok
  rw [hparse] at hraw'
  injection hraw' with hraw'
  subst hraw'
  rw [normalizeIntents_eq hsc, if_pos (by simp [hown, (isNull_eq_false_iff _).2 hnull,
    (typeof_ne_undefined_iff _).2 hundef])] at hr
  have hI : getProp result "intents" = .array [getProp raw "topScoringIntent"] [] := by
    rw [attachIsFinished_getProp (by decide) hatt]
    exact getProp_setProp_same "topScoringIntent" (by decide) (by decide) (by decide)
      (by decide) hown hr
  refine ⟨hI, ?_, ?_⟩
  · rw [hI]
    rfl
  · rw [attachIsFinished_getProp (by decide) hatt]
    exact getProp_setProp_ne (by decide) hr

/-- Witness for C17: a verbose payload with the top intent `A` and the intents `A`, `B`; the
result's `intents` holds `A` alone. -/
theorem C17_topScoringIntent_overwrites_intents_witness :
    LUISResponse jsonParseTable (.string
        "\x7b\"topScoringIntent\":\x7b\"intent\":\"A\"\x7d,\"intents\":[\x7b\"intent\":\"A\"\x7d,\x7b\"intent\":\"B\"\x7d]\x7d") =
      .ok (.object [("topScoringIntent", .object [("intent", .string "A")]),
        ("intents", .array [.object [("intent", .string "A")]] [])]) ∧
    getProp (.object [("topScoringIntent", .object [("intent", .string "A")]),
        ("intents", .array [.object [("intent", .string "A")]] [])]) "intents" =
      .array [.object [("intent", .string "A")]] [] :=
  ⟨rfl, (C17_topScoringIntent_overwrites_intents jsonParseTable
    (.string
      "\x7b\"topScoringIntent\":\x7b\"intent\":\"A\"\x7d,\"intents\":[\x7b\"intent\":\"A\"\x7d,\x7b\"intent\":\"B\"\x7d]\x7d")
    (.object [("topScoringIntent", .object [("intent", .string "A")]),
      ("intents", .array [.object [("intent", .string "A")],
        .object [("intent", .string "B")]] [])])
    (.object [("topScoringIntent", .object [("intent", .string "A")]),
      ("intents", .array [.object [("intent", .string "A")]] [])])
    rfl rfl rfl (fun h => by cases h) (fun h => by cases h)).1⟩

/-! ## C18: what the factory accepts -/

/-- C18 (counterexample): the initialization data
`{appId: 'APP', appKey: 'KEY', hasOwnProperty: 1}` has `appId` and `appKey` as own
properties, both non-empty strings without a space, and no flags, but the factory returns
no client: `initData.hasOwnProperty` is the number `1`, and calling it raises `TypeError`. -/
theorem C18_own_hasOwnProperty_rejected :
    ownProperty (.object [("appId", .string "APP"), ("appKey", .string "KEY"),
      ("hasOwnProperty", .number 1)]) "appId" = true ∧
    ownProperty (.object [("appId", .string "APP"), ("appKey", .string "KEY"),
      ("hasOwnProperty", .number 1)]) "appKey" = true ∧
    getProp (.object [("appId", .string "APP"), ("appKey", .string "KEY"),
      ("hasOwnProperty", .number 1)]) "appId" = .string "APP" ∧
    getProp (.object [("appId", .string "APP"), ("appKey", .string "KEY"),
      ("hasOwnProperty", .number 1)]) "appKey" = .string "KEY" ∧
    getProp (.object [("appId", .string "APP"), ("appKey", .string "KEY"),
      ("hasOwnProperty", .number 1)]) "preview" = .undefined ∧
    getProp (.object [("appId", .string "APP"), ("appKey", .string "KEY"),
      ("hasOwnProperty", .number 1)]) "verbose" = .undefined ∧
    LUISClient (.object [("appId", .string "APP"), ("appKey", .string "KEY"),
      ("hasOwnProperty", .number 1)]) = .error .typeError :=
  ⟨rfl, rfl, rfl, rfl, rfl, rfl, rfl⟩

/-- C18 (amended): for initialization data that has no own property named `hasOwnProperty`,
`LUISClient` returns a client exactly when the data has `appId` and `appKey` as own
properties, both hold a non-empty string without the space U+0020, and `preview` and
`verbose` each hold `undefined`, `null` or a boolean.  In particular every pair of non-empty
credentials without U+0020 is accepted, whatever other code units (tab, newline, `&`, `#`,
`=`, an opening brace, `$`) they hold. -/
theorem C18_factory_accepts_iff (initData : JSValue)
    (hplain : ownProperty initData "hasOwnProperty" = false) :
    ((∃ c, LUISClient initData = .ok c) ↔
      ownProperty initData "appId" = true ∧
      ownProperty initData "appKey" = true ∧
      (∃ a, getProp initData "appId" = .string a ∧ a ≠ "" ∧ 0x20 ∉ a.units) ∧
      (∃ k, getProp initData "appKey" = .string k ∧ k ≠ "" ∧ 0x20 ∉ k.units) ∧
      (getProp initData "preview" = .undefined ∨ getProp initData "preview" = .null ∨
        ∃ b, getProp initData "preview" = .bool b) ∧
      (getProp initData "verbose" = .undefined ∨ getProp initData "verbose" = .null ∨
        ∃ b, getProp initData "verbose" = .bool b)) ∧
    (∀ a k : JSString, a ≠ "" → 0x20 ∉ a.units → k ≠ "" → 0x20 ∉ k.units →
      LUISClient (credentials a k) = .ok ⟨a, k, false, false⟩) := by
  have hflag : ∀ (v : JSValue) (name : String),
      (∃ b, validateBooleanParam v name = .ok b) ↔
        (v = .undefined ∨ v = .null ∨ ∃ b, v = .bool b) := by
    intro v name
    rw [validateBooleanParam_eq]
    cases v <;> simp [specFlag]
  constructor
  · constructor
    · rintro ⟨c, hc⟩
      obtain ⟨h1, h2, h3, h4, h5⟩ := LUISClient_ok hc
      obtain ⟨ha, hk⟩ := (validateInitData_ok_iff _).1 h1
      have ha' := hasOwnProperty_eq_ok ha
      have hk' := hasOwnProperty_eq_ok hk
      exact ⟨ha'.symm, hk'.symm, ⟨c.appId, (validateAppInfoParam_ok_iff _ _ _).1 h2⟩,
        ⟨c.appKey, (validateAppInfoParam_ok_iff _ _ _).1 h3⟩,
        (hflag _ _).1 ⟨_, h4⟩, (hflag _ _).1 ⟨_, h5⟩⟩
    · rintro ⟨ha, hk, ⟨a, ha'⟩, ⟨k, hk'⟩, hp, hv⟩
      obtain ⟨p, hp'⟩ := (hflag _ "Preview").2 hp
      obtain ⟨v, hv'⟩ := (hflag _ "Verbose").2 hv
      obtain ⟨hu, hn⟩ := ne_null_of_ownProperty ha
      have hinit : validateInitData initData = .ok () :=
        (validateInitData_ok_iff _).2
          ⟨by rw [hasOwnProperty_plain hu hn hplain, ha],
            by rw [hasOwnProperty_plain hu hn hplain, hk]⟩
      refine ⟨⟨a, k, p, v⟩, ?_⟩
      simp only [LUISClient, hinit,
        (validateAppInfoParam_ok_iff _ "Application Id" _).2 ha',
        (validateAppInfoParam_ok_iff _ "Subscription Key" _).2 hk', hp', hv']
  · intro a k ha1 ha2 hk1 hk2
    have h1 : validateAppInfoParam (.string a) "Application Id" = .ok a :=
      (validateAppInfoParam_ok_iff _ _ _).2 ⟨rfl, ha1, ha2⟩
    have h2 : validateAppInfoParam (.string k) "Subscription Key" = .ok k :=
      (validateAppInfoParam_ok_iff _ _ _).2 ⟨rfl, hk1, hk2⟩
    have hi : validateInitData (credentials a k) = .ok () :=
      (validateInitData_ok_iff _).2 ⟨rfl, rfl⟩
    have ga : getProp (credentials a k) "appId" = .string a := rfl
    have gk : getProp (credentials a k) "appKey" = .string k := rfl
    have gp : getProp (credentials a k) "preview" = .undefined := rfl
    have gv : getProp (credentials a k) "verbose" = .undefined := rfl
    simp only [LUISClient, hi, ga, gk, gp, gv, h1, h2]
    rfl

/-- Witness for C18: credentials with a tab, a newline and the characters `&#=`, an opening
brace and `$` are accepted. -/
theorem C18_factory_accepts_iff_witness :
    ownProperty (credentials "a\tb\n&#=\x7b$" "k\t\n&#=\x7b$") "hasOwnProperty" = false ∧
    (∃ c, LUISClient (credentials "a\tb\n&#=\x7b$" "k\t\n&#=\x7b$") = .ok c) ∧
    LUISClient (credentials "a\tb\n&#=\x7b$" "k\t\n&#=\x7b$") =
      .ok ⟨"a\tb\n&#=\x7b$", "k\t\n&#=\x7b$", false, false⟩ :=
  ⟨rfl, (C18_factory_accepts_iff (credentials "a\tb\n&#=\x7b$" "k\t\n&#=\x7b$") rfl).1.2
      ⟨rfl, rfl, ⟨_, rfl, by decide, by decide⟩, ⟨_, rfl, by decide, by decide⟩,
        Or.inl rfl, Or.inl rfl⟩,
    (C18_factory_accepts_iff (credentials "a\tb\n&#=\x7b$" "k\t\n&#=\x7b$") rfl).2
      "a\tb\n&#=\x7b$" "k\t\n&#=\x7b$" (by decide) (by decide) (by decide) (by decide)⟩

/-! ## C19: substitution and concatenation -/

/-- C19: for every client whose `appId` and `appKey` hold neither an opening brace nor a
dollar sign, and for every text with its escaped form `escapedText`, the string that
`stringFormat` builds from `LUISPredictMask` is the concatenation of the mask's fixed parts
with the arguments in order, which is the URL the specification gives for `predict`; and for
every context id that holds neither character the same is true of `LUISReplyMask`, which on
a preview client gives the URL the specification gives for `reply`. -/
theorem C19_stringFormat_agrees_with_concatenation (c : Client) (text escapedText : JSString)
    (hId : 0x7B ∉ c.appId.units ∧ 0x24 ∉ c.appId.units)
    (hKey : 0x7B ∉ c.appKey.units ∧ 0x24 ∉ c.appKey.units)
    (hq : encodeURIComponent text = .ok escapedText) :
    stringFormat LUISPredictMask
        [c.LUISPreviewURL, c.appId, c.appKey, c.LUISVerboseURL, escapedText] =
      "https://api.projectoxford.ai/luis/v1/application" ++ c.LUISPreviewURL ++ "?id="
        ++ c.appId ++ "&subscription-key=" ++ c.appKey ++ c.LUISVerboseURL ++ "&q="
        ++ escapedText ∧
    stringFormat LUISPredictMask
        [c.LUISPreviewURL, c.appId, c.appKey, c.LUISVerboseURL, escapedText] =
      specPredictURL c.appId c.appKey c.preview c.verbose escapedText ∧
    ∀ contextId : JSString, 0x7B ∉ contextId.units → 0x24 ∉ contextId.units →
      stringFormat LUISReplyMask
          [c.LUISPreviewURL, c.appId, c.appKey, contextId, c.LUISVerboseURL, escapedText] =
        "https://api.projectoxford.ai/luis/v1/application" ++ c.LUISPreviewURL ++ "?id="
          ++ c.appId ++ "&subscription-key=" ++ c.appKey ++ "&contextid=" ++ contextId
          ++ c.LUISVerboseURL ++ "&q=" ++ escapedText ∧
      (c.preview = true →
        stringFormat LUISReplyMask
            [c.LUISPreviewURL, c.appId, c.appKey, contextId, c.LUISVerboseURL,
              escapedText] =
          specReplyURL c.appId c.appKey contextId c.verbose escapedText) := by
  have hdollar := encodeURIComponent_no_dollar hq
  have hpredict := stringFormat_LUISPredictMask _ _ _ _ _ (LUISPreviewURL_plain c) hId hKey
    (LUISVerboseURL_plain c) hdollar
  refine ⟨hpredict, ?_, ?_⟩
  · rw [hpredict]
    rfl
  · intro contextId h1 h2
    have hreply := stringFormat_LUISReplyMask _ _ _ _ _ _ (LUISPreviewURL_plain c) hId hKey
      ⟨h1, h2⟩ (LUISVerboseURL_plain c) hdollar
    refine ⟨hreply, ?_⟩
    intro hp
    rw [hreply]
    simp only [specReplyURL, Client.LUISPreviewURL, Client.LUISVerboseURL, hp, if_true]
    apply JSString.ext_units
    simp only [JSString.units_append, List.append_assoc]
    rfl

set_option maxRecDepth 10000 in
/-- Witness for C19: a preview, verbose client and the trimmed text `hello`. -/
theorem C19_stringFormat_agrees_with_concatenation_witness :
    encodeURIComponent (trim "  hello  ") = .ok "hello" ∧
    stringFormat LUISPredictMask ["/preview", "APP", "KEY", "&verbose=true", "hello"] =
      specPredictURL "APP" "KEY" true true "hello" ∧
    specPredictURL "APP" "KEY" true true "hello" =
      "https://api.projectoxford.ai/luis/v1/application/preview?id=APP&subscription-key=KEY&verbose=true&q=hello" :=
  ⟨rfl, (C19_stringFormat_agrees_with_concatenation ⟨"APP", "KEY", true, true⟩
    (trim "  hello  ") "hello" ⟨by decide, by decide⟩ ⟨by decide, by decide⟩ rfl).2.1, rfl⟩

end LUIS
